import Mathlib

/-!
Verification development for the VTA conv2d scheduling module
(`vta/python/vta/top/vta_conv2d.py`).

The Python module has three entry points:
  * `conv2d_packed`   — declares the packed convolution compute, computes the
    output shape and reports a flop count (lines 32-67);
  * `schedule_conv2d_packed` — classifies the compute graph and builds the
    tiled, staged, annotated schedule (lines 70-190);
  * `_schedule_add`   — a heuristic schedule for fused elementwise adds
    (lines 193-291).

Each is shallowly embedded below: shapes are lists of integers, the compute
graph is an inductive tree of operations, and the schedule substrate
(split / reorder / compute_at / set_scope / pragma / tensorize, consumed from
TVM) is modelled as explicit state over named stages and axes.
-/

/-- Substring test: Lean rendering of Python's `"pat" in s`. -/
def strContainsAux (pat : List Char) : List Char → Bool
  | [] => decide (pat = [])
  | c :: cs => pat.isPrefixOf (c :: cs) || strContainsAux pat cs

/-- Substring test on strings, `strContains s pat ↔ Python "pat in s"`. -/
def strContains (s pat : String) : Bool :=
  strContainsAux pat.toList s.toList

/-! ## Packed compute declaration (`conv2d_packed`, lines 32-67)

Shapes are rank-6 lists of integers (symbolic shapes are constant by the
time this function runs, per `get_const_int`).  Python `//` is floor
division, i.e. `Int.fdiv`.  The layout check `is_packed_layout(layout)` and
the error raised for it live outside this file's source, so the layout is
passed as the boolean result of that check. -/

/-- Errors raised by `conv2d_packed`: `topi.InvalidShapeError` for a bad
layout, and Python `AssertionError` for a failed `assert`. -/
inductive ConvError where
  | invalidShape
  | assertFail
deriving DecidableEq, Repr

/-- Result of the packed conv2d compute declaration: whether a `pad_data`
node was inserted, the (possibly padded) activation shape, the output shape
and the flop count reported to `cfg.add_flop`. -/
structure ConvCompute where
  padInserted : Bool
  padDataShape : List Int
  oshape : List Int
  flop : Int
deriving DecidableEq, Repr

/-- Shallow embedding of `conv2d_packed` (lines 32-67).  Mirrors the source:
layout check, `assert dilation == (1, 1)`, the `if padding[0]:` pad of the
two spatial axes by `[0, 0, padding[0], padding[1], 0, 0]` (symmetric, so the
extents grow by twice the amount), rank asserts, the output extents
`(pad - kernel) // stride + 1`, the output shape
`(data[0], kernel[0], oh, ow, data[4], kernel[4])` and the flop count
`2 * prod(oshape) * kshape[2] * kshape[3] * ishape[1] * ishape[-1]`. -/
def conv2d_packed (data kernel : List Int) (strides padding dilation : Int × Int)
    (packedLayout : Bool) : Except ConvError ConvCompute :=
  if ¬ packedLayout then .error .invalidShape
  else if ¬ (dilation = (1, 1)) then .error .assertFail
  else
    match data, kernel with
    | [d0, d1, d2, d3, d4, d5], [k0, k1, k2, k3, k4, k5] =>
      let pad_data : List Int :=
        if padding.1 ≠ 0 then [d0, d1, d2 + 2 * padding.1, d3 + 2 * padding.2, d4, d5]
        else [d0, d1, d2, d3, d4, d5]
      let oheight : Int := Int.fdiv (pad_data.getD 2 0 - k2) strides.1 + 1
      let owidth : Int := Int.fdiv (pad_data.getD 3 0 - k3) strides.2 + 1
      let oshape : List Int := [d0, k0, oheight, owidth, d4, k4]
      .ok { padInserted := decide (padding.1 ≠ 0)
            padDataShape := pad_data
            oshape := oshape
            flop := 2 * oshape.prod * k2 * k3 * d1 * d5 }
    | _, _ => .error .assertFail

/-- C1: for every rank-6 activation and kernel with dilation (1,1),
`conv2d_packed` succeeds and returns an output whose spatial extents are
`floor((padded_extent - kernel_extent) / stride) + 1` per axis (in
particular `floor((in + 2*pad - k)/stride) + 1` when padding is applied),
with output shape
`[activation_outer_batch, kernel_outer_channel, out_h, out_w,
  activation_inner_batch, kernel_inner_channel]`. -/
theorem conv2d_packed_output_shape
    (d0 d1 d2 d3 d4 d5 k0 k1 k2 k3 k4 k5 sh sw ph pw : Int) :
    ∃ r, conv2d_packed [d0, d1, d2, d3, d4, d5] [k0, k1, k2, k3, k4, k5]
        (sh, sw) (ph, pw) (1, 1) true = .ok r ∧
      r.padDataShape =
        (if ph ≠ 0 then [d0, d1, d2 + 2 * ph, d3 + 2 * pw, d4, d5]
         else [d0, d1, d2, d3, d4, d5]) ∧
      r.oshape = [d0, k0,
        Int.fdiv (r.padDataShape.getD 2 0 - k2) sh + 1,
        Int.fdiv (r.padDataShape.getD 3 0 - k3) sw + 1,
        d4, k4] := by
  by_cases hp : ph = 0 <;>
    simp [conv2d_packed, hp, List.getD]

/-- C2 counterexample: with the non-zero padding pair (0, 1) the code inserts
no pad node at all (the condition is `if padding[0]:`, which only consults
the height component), so the activation is used unchanged — refuting the
claim that every non-zero padding pair causes the spatial axes to be
padded. -/
theorem conv2d_packed_padding_pair_counterexample :
    ((0 : Int), (1 : Int)) ≠ ((0 : Int), (0 : Int)) ∧
    ∃ r, conv2d_packed [1, 1, 4, 4, 1, 16] [1, 1, 3, 3, 16, 16]
        (1, 1) (0, 1) (1, 1) true = .ok r ∧
      r.padInserted = false ∧ r.padDataShape = [1, 1, 4, 4, 1, 16] := by
  refine ⟨by decide, _, rfl, by decide, by decide⟩

/-- C2 amended: padding is applied if and only if the *height* component of
the padding pair is non-zero; when it is, the height axis is padded
symmetrically by `p_h` and the width axis by `p_w` with batch and channel
axes untouched, and when `p_h = 0` no pad node is inserted (even if
`p_w ≠ 0`) and the activation shape is used unchanged. -/
theorem conv2d_packed_padding_amended
    (d0 d1 d2 d3 d4 d5 k0 k1 k2 k3 k4 k5 sh sw ph pw : Int) :
    ∃ r, conv2d_packed [d0, d1, d2, d3, d4, d5] [k0, k1, k2, k3, k4, k5]
        (sh, sw) (ph, pw) (1, 1) true = .ok r ∧
      (r.padInserted = true ↔ ph ≠ 0) ∧
      r.padDataShape =
        (if ph ≠ 0 then [d0, d1, d2 + 2 * ph, d3 + 2 * pw, d4, d5]
         else [d0, d1, d2, d3, d4, d5]) := by
  by_cases hp : ph = 0 <;>
    simp [conv2d_packed, hp]

/-- C3 counterexample: at the spec's own end-to-end example (activation
`[1,4,16,16,1,16]`, kernel `[4,4,3,3,16,16]`, stride (1,1), padding (1,1),
dilation (1,1)) the recorded flop count is
`2 * (1*4*16*16*1*16) * 3 * 3 * 4 * 16 = 18874368`, not the claimed
226,492,416 (the output shape `[1,4,16,16,1,16]` is as claimed). -/
theorem conv2d_packed_flop_example_counterexample :
    ∃ r, conv2d_packed [1, 4, 16, 16, 1, 16] [4, 4, 3, 3, 16, 16]
        (1, 1) (1, 1) (1, 1) true = .ok r ∧
      r.flop = 18874368 ∧ ¬ (r.flop = 226492416) ∧
      r.oshape = [1, 4, 16, 16, 1, 16] := by
  refine ⟨_, rfl, by decide, by decide, by decide⟩

/-- C3 amended: `conv2d_packed` records a flop count of exactly
`2 * output_volume * kernel_height * kernel_width * input_outer_channel *
input_inner_channel`; in particular, for activation shape [1,4,16,16,1,16],
kernel shape [4,4,3,3,16,16], stride (1,1), padding (1,1), dilation (1,1)
the recorded count is 18,874,368 and the output shape is [1,4,16,16,1,16]. -/
theorem conv2d_packed_flop_amended :
    (∀ d0 d1 d2 d3 d4 d5 k0 k1 k2 k3 k4 k5 sh sw ph pw : Int,
      ∃ r, conv2d_packed [d0, d1, d2, d3, d4, d5] [k0, k1, k2, k3, k4, k5]
          (sh, sw) (ph, pw) (1, 1) true = .ok r ∧
        r.flop = 2 * r.oshape.prod * k2 * k3 * d1 * d5) ∧
    (∃ r, conv2d_packed [1, 4, 16, 16, 1, 16] [4, 4, 3, 3, 16, 16]
        (1, 1) (1, 1) (1, 1) true = .ok r ∧
      r.flop = 18874368 ∧ r.oshape = [1, 4, 16, 16, 1, 16]) := by
  constructor
  · intro d0 d1 d2 d3 d4 d5 k0 k1 k2 k3 k4 k5 sh sw ph pw
    by_cases hp : ph = 0 <;> simp [conv2d_packed, hp]
  · exact ⟨_, rfl, by decide, by decide⟩

/-! ## Compute-graph model and the classifier of `schedule_conv2d_packed`

An operation (`te` op) is a placeholder or a computed node with a tag, a
dtype, iteration axes (only their count matters to the classifier: Python's
`if not op.axis:` tests emptiness) and input tensors.  In the `te` graph a
tensor is identified with the op producing it (all ops here are
single-output).  `topi.tag.is_broadcast` lives outside this source file, so
it is passed in as a predicate on tags. -/

/-- Operation node of the compute graph. -/
inductive TOp where
  | placeholder (id : Nat) (dtype : String)
  | compute (tag dtype : String) (numAxes : Nat) (inputs : List TOp)

mutual

/-- Structural equality test for `TOp` (the model's rendering of
`op.same_as`: distinct graph nodes are built as distinct terms). -/
def TOp.beq : TOp → TOp → Bool
  | .placeholder i d, .placeholder i' d' => i == i' && d == d'
  | .compute t d n l, .compute t' d' n' l' =>
      t == t' && d == d' && n == n' && TOp.beqList l l'
  | _, _ => false

def TOp.beqList : List TOp → List TOp → Bool
  | [], [] => true
  | a :: as, b :: bs => TOp.beq a b && TOp.beqList as bs
  | _, _ => false

end

mutual

/-- The boolean equality on `TOp` agrees with propositional equality. -/
theorem TOp.beq_iff : ∀ a b : TOp, TOp.beq a b = true ↔ a = b
  | .placeholder i d, .placeholder i' d' => by simp [TOp.beq]
  | .compute t d n l, .compute t' d' n' l' => by
      simp [TOp.beq, TOp.beqList_iff l l', and_assoc]
  | .placeholder _ _, .compute _ _ _ _ => by simp [TOp.beq]
  | .compute _ _ _ _, .placeholder _ _ => by simp [TOp.beq]

theorem TOp.beqList_iff : ∀ as bs : List TOp, TOp.beqList as bs = true ↔ as = bs
  | [], [] => by simp [TOp.beqList]
  | a :: as, b :: bs => by
      simp [TOp.beqList, TOp.beq_iff a b, TOp.beqList_iff as bs]
  | [], _ :: _ => by simp [TOp.beqList]
  | _ :: _, [] => by simp [TOp.beqList]

end

instance : DecidableEq TOp := fun a b =>
  decidable_of_iff (TOp.beq a b = true) (TOp.beq_iff a b)

/-- Tag of an operation (placeholders carry no compute tag). -/
def TOp.tag : TOp → String
  | .placeholder _ _ => ""
  | .compute t _ _ _ => t

/-- Output dtype of the tensor produced by an operation. -/
def TOp.dtype : TOp → String
  | .placeholder _ d => d
  | .compute _ d _ _ => d

/-- Number of iteration axes (`len(op.axis)`). -/
def TOp.numAxes : TOp → Nat
  | .placeholder _ _ => 0
  | .compute _ _ n _ => n

/-- Input tensors (identified with their producing ops). -/
def TOp.inputs : TOp → List TOp
  | .placeholder _ _ => []
  | .compute _ _ _ l => l

/-- Whether the op is a `tvm.te.PlaceholderOp`. -/
def TOp.isPlaceholder : TOp → Bool
  | .placeholder _ _ => true
  | .compute _ _ _ _ => false

mutual

/-- Size measure used for termination of the traversal. -/
def TOp.tsize : TOp → Nat
  | .placeholder _ _ => 1
  | .compute _ _ _ l => 1 + TOp.tsizeList l

def TOp.tsizeList : List TOp → Nat
  | [] => 0
  | a :: as => 1 + TOp.tsize a + TOp.tsizeList as

end

/-- Python exceptions surfaced by the scheduling entry points. -/
inductive PyErr where
  | assertionError
  | indexError
deriving DecidableEq, Repr

/-- Accumulator state of the classifier: the four lists filled in by
`_traverse` (lines 75-78), in Python append order. -/
structure ClassifyState where
  const_ops : List TOp
  ewise_inputs : List (TOp × TOp)
  ewise_ops : List TOp
  conv2d_res : List TOp
deriving DecidableEq

/-- Classification of a single broadcast op (lines 83-87): the output op is
skipped, an axis-less op goes to `const_ops`, any other to `ewise_ops`. -/
def classifyStep (out op : TOp) (st : ClassifyState) : ClassifyState :=
  if op = out then st
  else if op.numAxes = 0 then { st with const_ops := st.const_ops ++ [op] }
  else { st with ewise_ops := st.ewise_ops ++ [op] }

mutual

/-- Shallow embedding of the broadcast/convolution case split of
`_traverse` (lines 82-95); see the module docstring of `traverseInputs`
for the input walk.  A broadcast-tagged op is classified and its inputs
walked in order; a non-broadcast op must carry the `conv2d_dense` tag
(`assert`, line 94) and is appended to `conv2d_res`.  There is no
visited-set: revisiting is once per reference, exactly as in the source. -/
def traverse (isB : String → Bool) (out op : TOp) (st : ClassifyState) :
    Except PyErr ClassifyState :=
  if isB op.tag then
    traverseInputs isB out op op.inputs (classifyStep out op st)
  else if op.tag = "conv2d_dense" then
    .ok { st with conv2d_res := st.conv2d_res ++ [op] }
  else .error .assertionError
termination_by TOp.tsize op
decreasing_by cases op <;> simp [TOp.inputs, TOp.tsize, TOp.tsizeList]

/-- Walk of `op.input_tensors` (lines 88-92): placeholders are recorded as
`(consumer, tensor)` pairs, computed inputs are recursed into. -/
def traverseInputs (isB : String → Bool) (out consumer : TOp) (ts : List TOp)
    (st : ClassifyState) : Except PyErr ClassifyState :=
  match ts with
  | [] => .ok st
  | t :: rest =>
    if t.isPlaceholder then
      traverseInputs isB out consumer rest
        { st with ewise_inputs := st.ewise_inputs ++ [(consumer, t)] }
    else
      match traverse isB out t st with
      | .ok st2 => traverseInputs isB out consumer rest st2
      | .error e => .error e
termination_by TOp.tsizeList ts
decreasing_by all_goals simp [TOp.tsizeList] <;> omega

end

/-- The classifier pass of `schedule_conv2d_packed`: run `_traverse` from
the output op on empty lists (line 97), then `assert len(conv2d_res) == 1`
(line 98). -/
def classify (isB : String → Bool) (out : TOp) : Except PyErr ClassifyState :=
  match traverse isB out out ⟨[], [], [], []⟩ with
  | .ok st =>
    if st.conv2d_res.length = 1 then .ok st else .error .assertionError
  | .error e => .error e

/-- Entry checks of `schedule_conv2d_packed` before any traversal
(lines 73-79): `assert len(outs) == 1`, then
`assert "int" in output.op.input_tensors[0].dtype` (an empty input list
would raise `IndexError` on the subscript), and only then the classifier
pass. -/
def schedule_conv2d_packed_classify (isB : String → Bool) (outs : List TOp) :
    Except PyErr ClassifyState :=
  match outs with
  | [output] =>
    match output.inputs with
    | [] => .error .indexError
    | t :: _ =>
      if strContains t.dtype ("int") then classify isB output
      else .error .assertionError
  | _ => .error .assertionError

/-! ### Invariants of the classifier traversal -/

/-- Growth relation on classifier states: the traversal only ever appends,
so every list of the later state extends the earlier one by a suffix. -/
def StGrows (s1 s2 : ClassifyState) : Prop :=
  (∃ t, s2.const_ops = s1.const_ops ++ t) ∧
  (∃ t, s2.ewise_inputs = s1.ewise_inputs ++ t) ∧
  (∃ t, s2.ewise_ops = s1.ewise_ops ++ t) ∧
  (∃ t, s2.conv2d_res = s1.conv2d_res ++ t)

theorem stGrows_refl (s : ClassifyState) : StGrows s s :=
  ⟨⟨[], (List.append_nil _).symm⟩, ⟨[], (List.append_nil _).symm⟩,
   ⟨[], (List.append_nil _).symm⟩, ⟨[], (List.append_nil _).symm⟩⟩

theorem stGrows_trans {a b c : ClassifyState} (h1 : StGrows a b)
    (h2 : StGrows b c) : StGrows a c := by
  obtain ⟨⟨t1, e1⟩, ⟨t2, e2⟩, ⟨t3, e3⟩, ⟨t4, e4⟩⟩ := h1
  obtain ⟨⟨u1, f1⟩, ⟨u2, f2⟩, ⟨u3, f3⟩, ⟨u4, f4⟩⟩ := h2
  exact ⟨⟨t1 ++ u1, by simp [f1, e1]⟩, ⟨t2 ++ u2, by simp [f2, e2]⟩,
         ⟨t3 ++ u3, by simp [f3, e3]⟩, ⟨t4 ++ u4, by simp [f4, e4]⟩⟩

theorem stGrows_mem_const {a b : ClassifyState} (h : StGrows a b) {x : TOp}
    (hx : x ∈ a.const_ops) : x ∈ b.const_ops := by
  obtain ⟨⟨t, e⟩, _, _, _⟩ := h
  rw [e]; exact List.mem_append_left _ hx

theorem stGrows_mem_ewise {a b : ClassifyState} (h : StGrows a b) {x : TOp}
    (hx : x ∈ a.ewise_ops) : x ∈ b.ewise_ops := by
  obtain ⟨_, _, ⟨t, e⟩, _⟩ := h
  rw [e]; exact List.mem_append_left _ hx

theorem stGrows_mem_conv {a b : ClassifyState} (h : StGrows a b) {x : TOp}
    (hx : x ∈ a.conv2d_res) : x ∈ b.conv2d_res := by
  obtain ⟨_, _, _, ⟨t, e⟩⟩ := h
  rw [e]; exact List.mem_append_left _ hx

theorem classifyStep_grows (out op : TOp) (st : ClassifyState) :
    StGrows st (classifyStep out op st) := by
  unfold classifyStep
  split
  · exact stGrows_refl st
  · split
    · exact ⟨⟨[op], rfl⟩, ⟨[], by simp⟩, ⟨[], by simp⟩, ⟨[], by simp⟩⟩
    · exact ⟨⟨[], by simp⟩, ⟨[], by simp⟩, ⟨[op], rfl⟩, ⟨[], by simp⟩⟩

theorem tsizeList_inputs_lt (op : TOp) :
    TOp.tsizeList op.inputs < TOp.tsize op := by
  cases op <;> simp [TOp.inputs, TOp.tsize, TOp.tsizeList]

theorem tsize_head_lt (t : TOp) (rest : List TOp) :
    TOp.tsize t < TOp.tsizeList (t :: rest) := by
  simp only [TOp.tsizeList]; omega

theorem tsizeList_tail_lt (t : TOp) (rest : List TOp) :
    TOp.tsizeList rest < TOp.tsizeList (t :: rest) := by
  simp only [TOp.tsizeList]; omega

mutual

/-- The traversal only appends to the four classifier lists. -/
theorem traverse_grows (isB : String → Bool) (out op : TOp)
    (st st' : ClassifyState) (h : traverse isB out op st = .ok st') :
    StGrows st st' := by
  rw [traverse.eq_def] at h
  by_cases hb : isB op.tag = true
  · rw [if_pos hb] at h
    exact stGrows_trans (classifyStep_grows out op st)
      (traverseInputs_grows isB out op op.inputs (classifyStep out op st) st' h)
  · rw [if_neg hb] at h
    by_cases ht : op.tag = "conv2d_dense"
    · rw [if_pos ht] at h
      cases h
      exact ⟨⟨[], by simp⟩, ⟨[], by simp⟩, ⟨[], by simp⟩, ⟨[op], rfl⟩⟩
    · rw [if_neg ht] at h
      cases h
termination_by TOp.tsize op
decreasing_by exact tsizeList_inputs_lt op

theorem traverseInputs_grows (isB : String → Bool) (out consumer : TOp) :
    ∀ (ts : List TOp) (st st' : ClassifyState),
      traverseInputs isB out consumer ts st = .ok st' → StGrows st st'
  | [], st, st', h => by
      rw [traverseInputs.eq_def] at h
      cases h
      exact stGrows_refl st
  | t :: rest, st, st', h => by
      rw [traverseInputs.eq_def] at h
      dsimp only at h
      by_cases hp : t.isPlaceholder = true
      · rw [if_pos hp] at h
        refine stGrows_trans ?_ (traverseInputs_grows isB out consumer rest _ st' h)
        exact ⟨⟨[], by simp⟩, ⟨[(consumer, t)], rfl⟩, ⟨[], by simp⟩, ⟨[], by simp⟩⟩
      · rw [if_neg hp] at h
        cases htr : traverse isB out t st with
        | error e => rw [htr] at h; cases h
        | ok st2 =>
          rw [htr] at h
          exact stGrows_trans (traverse_grows isB out t st st2 htr)
            (traverseInputs_grows isB out consumer rest st2 st' h)
termination_by ts => TOp.tsizeList ts
decreasing_by
  · exact tsizeList_tail_lt t rest
  · exact tsize_head_lt t rest
  · exact tsizeList_tail_lt t rest

end

mutual

/-- Soundness: every entry of a result list was already present or satisfies
the defining predicate of its category. -/
theorem traverse_sound (isB : String → Bool) (out op : TOp)
    (st st' : ClassifyState) (h : traverse isB out op st = .ok st') :
    (∀ x ∈ st'.const_ops, x ∈ st.const_ops ∨
      (isB x.tag = true ∧ x ≠ out ∧ x.numAxes = 0)) ∧
    (∀ x ∈ st'.ewise_ops, x ∈ st.ewise_ops ∨
      (isB x.tag = true ∧ x ≠ out ∧ x.numAxes ≠ 0)) ∧
    (∀ x ∈ st'.conv2d_res, x ∈ st.conv2d_res ∨ x.tag = "conv2d_dense") := by
  rw [traverse.eq_def] at h
  by_cases hb : isB op.tag = true
  · rw [if_pos hb] at h
    have hrec := traverseInputs_sound isB out op op.inputs _ st' h
    refine ⟨?_, ?_, ?_⟩
    · intro x hx
      rcases hrec.1 x hx with hmem | hpred
      · unfold classifyStep at hmem
        split at hmem
        · exact .inl hmem
        · split at hmem
          next hne hax =>
            rcases List.mem_append.mp hmem with hmem' | hmem'
            · exact .inl hmem'
            · simp only [List.mem_singleton] at hmem'
              subst hmem'
              exact .inr ⟨hb, hne, hax⟩
          next => exact .inl hmem
      · exact .inr hpred
    · intro x hx
      rcases hrec.2.1 x hx with hmem | hpred
      · unfold classifyStep at hmem
        split at hmem
        · exact .inl hmem
        · split at hmem
          next => exact .inl hmem
          next hne hax =>
            rcases List.mem_append.mp hmem with hmem' | hmem'
            · exact .inl hmem'
            · simp only [List.mem_singleton] at hmem'
              subst hmem'
              exact .inr ⟨hb, hne, hax⟩
      · exact .inr hpred
    · intro x hx
      rcases hrec.2.2 x hx with hmem | hpred
      · unfold classifyStep at hmem
        split at hmem
        · exact .inl hmem
        · split at hmem <;> exact .inl hmem
      · exact .inr hpred
  · rw [if_neg hb] at h
    by_cases ht : op.tag = "conv2d_dense"
    · rw [if_pos ht] at h
      cases h
      refine ⟨fun x hx => .inl hx, fun x hx => .inl hx, ?_⟩
      intro x hx
      rcases List.mem_append.mp hx with hmem | hmem
      · exact .inl hmem
      · simp only [List.mem_singleton] at hmem
        subst hmem
        exact .inr ht
    · rw [if_neg ht] at h
      cases h
termination_by TOp.tsize op
decreasing_by exact tsizeList_inputs_lt op

theorem traverseInputs_sound (isB : String → Bool) (out consumer : TOp) :
    ∀ (ts : List TOp) (st st' : ClassifyState),
      traverseInputs isB out consumer ts st = .ok st' →
      (∀ x ∈ st'.const_ops, x ∈ st.const_ops ∨
        (isB x.tag = true ∧ x ≠ out ∧ x.numAxes = 0)) ∧
      (∀ x ∈ st'.ewise_ops, x ∈ st.ewise_ops ∨
        (isB x.tag = true ∧ x ≠ out ∧ x.numAxes ≠ 0)) ∧
      (∀ x ∈ st'.conv2d_res, x ∈ st.conv2d_res ∨ x.tag = "conv2d_dense")
  | [], st, st', h => by
      rw [traverseInputs.eq_def] at h
      cases h
      exact ⟨fun x hx => .inl hx, fun x hx => .inl hx, fun x hx => .inl hx⟩
  | t :: rest, st, st', h => by
      rw [traverseInputs.eq_def] at h
      dsimp only at h
      by_cases hp : t.isPlaceholder = true
      · rw [if_pos hp] at h
        have hrec := traverseInputs_sound isB out consumer rest _ st' h
        exact ⟨hrec.1, hrec.2.1, hrec.2.2⟩
      · rw [if_neg hp] at h
        cases htr : traverse isB out t st with
        | error e => rw [htr] at h; cases h
        | ok st2 =>
          rw [htr] at h
          have h1 := traverse_sound isB out t st st2 htr
          have h2 := traverseInputs_sound isB out consumer rest st2 st' h
          refine ⟨?_, ?_, ?_⟩
          · intro x hx
            rcases h2.1 x hx with hmem | hpred
            · exact h1.1 x hmem
            · exact .inr hpred
          · intro x hx
            rcases h2.2.1 x hx with hmem | hpred
            · exact h1.2.1 x hmem
            · exact .inr hpred
          · intro x hx
            rcases h2.2.2 x hx with hmem | hpred
            · exact h1.2.2 x hmem
            · exact .inr hpred
termination_by ts => TOp.tsizeList ts
decreasing_by
  · exact tsizeList_tail_lt t rest
  · exact tsize_head_lt t rest
  · exact tsizeList_tail_lt t rest

end

/-- Processing an op classifies that op itself into the matching list. -/
theorem traverse_self (isB : String → Bool) (out op : TOp)
    (st st' : ClassifyState) (h : traverse isB out op st = .ok st') :
    (isB op.tag = true → op ≠ out →
      (op.numAxes = 0 → op ∈ st'.const_ops) ∧
      (op.numAxes ≠ 0 → op ∈ st'.ewise_ops)) ∧
    (isB op.tag = false → op.tag = "conv2d_dense" ∧ op ∈ st'.conv2d_res) := by
  rw [traverse.eq_def] at h
  by_cases hb : isB op.tag = true
  · rw [if_pos hb] at h
    have hg := traverseInputs_grows isB out op op.inputs _ st' h
    constructor
    · intro _ hne
      constructor
      · intro hax
        refine stGrows_mem_const hg ?_
        simp [classifyStep, hne, hax]
      · intro hax
        refine stGrows_mem_ewise hg ?_
        simp [classifyStep, hne, hax]
    · intro hb'
      rw [hb'] at hb
      cases hb
  · rw [if_neg hb] at h
    by_cases ht : op.tag = "conv2d_dense"
    · rw [if_pos ht] at h
      cases h
      exact ⟨fun hb' => absurd hb' hb, fun _ => ⟨ht, by simp⟩⟩
    · rw [if_neg ht] at h
      cases h

/-- If the walk over an input list succeeded, then for every non-placeholder
input there was a successful recursive `traverse` call whose result state is
extended by the final one. -/
theorem traverseInputs_calls (isB : String → Bool) (out consumer : TOp) :
    ∀ (ts : List TOp) (st st' : ClassifyState),
      traverseInputs isB out consumer ts st = .ok st' →
      ∀ t ∈ ts, t.isPlaceholder = false →
      ∃ u1 u2, traverse isB out t u1 = .ok u2 ∧ StGrows u2 st' := by
  intro ts
  induction ts with
  | nil =>
    intro st st' h t ht hp
    cases ht
  | cons t0 rest ih =>
    intro st st' h t ht hp
    rw [traverseInputs.eq_def] at h
    dsimp only at h
    by_cases hp0 : t0.isPlaceholder = true
    · rw [if_pos hp0] at h
      rcases List.mem_cons.mp ht with rfl | hmem
      · rw [hp] at hp0; cases hp0
      · exact ih _ _ h t hmem hp
    · rw [if_neg hp0] at h
      cases htr : traverse isB out t0 st with
      | error e => rw [htr] at h; cases h
      | ok st2 =>
        rw [htr] at h
        rcases List.mem_cons.mp ht with rfl | hmem
        · exact ⟨st, st2, htr, traverseInputs_grows isB out consumer rest st2 st' h⟩
        · exact ih _ _ h t hmem hp

/-- Reachability along the traversal: starting from `a`, the walk descends
only through the computed (non-placeholder) inputs of broadcast-tagged
ops. -/
inductive Reach (isB : String → Bool) : TOp → TOp → Prop where
  | refl (op : TOp) : Reach isB op op
  | step {a b t : TOp} : Reach isB a b → isB b.tag = true →
      t ∈ b.inputs → t.isPlaceholder = false → Reach isB a t

/-- Every op reachable from `op` was itself processed by a successful
`traverse` call whose result is extended by the final state. -/
theorem traverse_reach (isB : String → Bool) (out op : TOp)
    (st st' : ClassifyState) (h : traverse isB out op st = .ok st')
    {x : TOp} (hr : Reach isB op x) :
    ∃ u1 u2, traverse isB out x u1 = .ok u2 ∧ StGrows u2 st' := by
  induction hr with
  | refl => exact ⟨st, st', h, stGrows_refl st'⟩
  | step _ hb htm htp ih =>
    obtain ⟨u1, u2, htr, hgr⟩ := ih
    rw [traverse.eq_def] at htr
    rw [if_pos hb] at htr
    obtain ⟨v1, v2, hv, hgv⟩ := traverseInputs_calls isB out _ _ _ _ htr _ htm htp
    exact ⟨v1, v2, hv, stGrows_trans hgv hgr⟩

/-- C4: whenever the classifier pass of `schedule_conv2d_packed` succeeds,
(i) its result is exactly the traversal's result and the number of
convolution nodes found is exactly one (`assert len(conv2d_res) == 1`, so a
traversal finding zero or two conv nodes can never yield a success), (ii)
every reachable non-output broadcast-tagged op is placed in `const_ops` when
it has no iteration axes and in `ewise_ops` when it has some — never both —
and (iii) every reachable non-broadcast op carries the `conv2d_dense` tag
and is in `conv2d_res`. -/
theorem schedule_conv2d_classifier_partition (isB : String → Bool) (out : TOp)
    (st' : ClassifyState) (h : classify isB out = .ok st') :
    traverse isB out out ⟨[], [], [], []⟩ = .ok st' ∧
    st'.conv2d_res.length = 1 ∧
    (∀ op : TOp, Reach isB out op → isB op.tag = true → op ≠ out →
      ((op.numAxes = 0 → op ∈ st'.const_ops ∧ op ∉ st'.ewise_ops) ∧
       (op.numAxes ≠ 0 → op ∈ st'.ewise_ops ∧ op ∉ st'.const_ops))) ∧
    (∀ op : TOp, Reach isB out op → isB op.tag = false →
      op.tag = "conv2d_dense" ∧ op ∈ st'.conv2d_res) := by
  unfold classify at h
  cases htr : traverse isB out out ⟨[], [], [], []⟩ with
  | error e => rw [htr] at h; cases h
  | ok st0 =>
    rw [htr] at h
    dsimp only at h
    by_cases hc : st0.conv2d_res.length = 1
    · rw [if_pos hc] at h
      cases h
      have hsound := traverse_sound isB out out _ st' htr
      refine ⟨rfl, hc, ?_, ?_⟩
      · intro op hro hb hne
        obtain ⟨u1, u2, hu, hg⟩ := traverse_reach isB out out _ st' htr hro
        have hs := traverse_self isB out op u1 u2 hu
        constructor
        · intro hax
          refine ⟨stGrows_mem_const hg ((hs.1 hb hne).1 hax), ?_⟩
          intro hmem
          rcases hsound.2.1 op hmem with h0 | ⟨_, _, hax'⟩
          · simp at h0
          · exact hax' hax
        · intro hax
          refine ⟨stGrows_mem_ewise hg ((hs.1 hb hne).2 hax), ?_⟩
          intro hmem
          rcases hsound.1 op hmem with h0 | ⟨_, _, hax'⟩
          · simp at h0
          · exact hax hax'
      · intro op hro hbf
        obtain ⟨u1, u2, hu, hg⟩ := traverse_reach isB out out _ st' htr hro
        have hs := (traverse_self isB out op u1 u2 hu).2 hbf
        exact ⟨hs.1, stGrows_mem_conv hg hs.2⟩
    · rw [if_neg hc] at h
      cases h

/-! ### Concrete graphs used to exercise the classifier -/

/-- Model of `topi.tag.is_broadcast` accepting the elementwise and broadcast
tags used in this pipeline (the exact tag set lives outside this source
file; the classifier theorems above are parametric in it). -/
def bcastTags : String → Bool :=
  fun t => decide (t = "elemwise") || decide (t = "broadcast")

/-- A placeholder input tensor. -/
def P0 : TOp := .placeholder 0 "int8"

/-- An elementwise op reading the placeholder. -/
def E0 : TOp := .compute "elemwise" "int8" 6 [P0]

/-- A convolution kernel node (tag `conv2d_dense`). -/
def C0 : TOp := .compute "conv2d_dense" "int32" 6 []

/-- Output op for the C4 witness graph: elementwise over `[E0, C0]`. -/
def outC4 : TOp := .compute "elemwise" "int8" 6 [E0, C0]

/-- Classifier result on the C4 witness graph. -/
def stC4 : ClassifyState := ⟨[], [(E0, P0)], [E0], [C0]⟩

/-- Witness for C4: on a concrete graph with one elementwise op and one
convolution node the classifier succeeds, `E0` lands in `ewise_ops` and not
in `const_ops`, and exactly one conv node is found. -/
theorem schedule_conv2d_classifier_partition_witness :
    classify bcastTags outC4 = .ok stC4 ∧
    E0 ∈ stC4.ewise_ops ∧ E0 ∉ stC4.const_ops ∧ stC4.conv2d_res.length = 1 := by
  have hcl : classify bcastTags outC4 = .ok stC4 := by
    simp [classify, traverse.eq_def, traverseInputs.eq_def, classifyStep,
      bcastTags, outC4, E0, P0, C0, TOp.tag, TOp.numAxes, TOp.inputs,
      TOp.isPlaceholder, stC4]
  have h := schedule_conv2d_classifier_partition bcastTags outC4 stC4 hcl
  have hr : Reach bcastTags outC4 E0 :=
    Reach.step (Reach.refl _) (by decide) (by decide) (by decide)
  have hE := (h.2.2.1 E0 hr (by decide) (by decide)).2 (by decide)
  exact ⟨hcl, hE.1, hE.2, h.2.1⟩

/-- First consumer of the shared node `E0`. -/
def A1 : TOp := .compute "elemwise" "int8" 6 [E0]

/-- Second, distinct consumer of the shared node `E0`. -/
def A2 : TOp := .compute "broadcast" "int8" 6 [E0]

/-- Output op of the C5 counterexample graph: `E0` is shared by the two
distinct consumers `A1` and `A2`. -/
def outC5 : TOp := .compute "elemwise" "int8" 6 [A1, A2, C0]

/-- Classifier result on the C5 counterexample graph: `E0` appears twice. -/
def stC5 : ClassifyState := ⟨[], [(E0, P0), (E0, P0)], [A1, E0, A2, E0], [C0]⟩

/-- C5 counterexample: on a graph where the sub-node `E0` is shared by the
two distinct consumers `A1` and `A2`, the traversal of
`schedule_conv2d_packed` (which keeps no visited-set) visits `E0` once per
consumer and appends it twice to `ewise_ops` — refuting the claim that a
shared node is visited exactly once in total and appended at most once. -/
theorem classifier_shared_node_counterexample :
    A1 ≠ A2 ∧ E0 ∈ A1.inputs ∧ E0 ∈ A2.inputs ∧
    classify bcastTags outC5 = .ok stC5 ∧
    stC5.ewise_ops.count E0 = 2 := by
  refine ⟨by decide, by decide, by decide, ?_, by decide⟩
  simp [classify, traverse.eq_def, traverseInputs.eq_def, classifyStep,
    bcastTags, outC5, A1, A2, E0, P0, C0, TOp.tag, TOp.numAxes, TOp.inputs,
    TOp.isPlaceholder, stC5]

/-- Output op whose input list references `E0` exactly `k` times, followed
by the convolution node. -/
def outRep (k : Nat) : TOp :=
  .compute "elemwise" "int8" 6 (List.replicate k E0 ++ [C0])

theorem E0_ne_outRep (k : Nat) : ¬ (E0 = outRep k) := by
  cases k with
  | zero => simp [E0, outRep, C0, P0]
  | succ n =>
    intro h
    have hlen := congrArg (fun o => o.inputs.length) h
    simp [E0, outRep, TOp.inputs] at hlen

theorem traverse_bcast_eq (isB : String → Bool) (out op : TOp)
    (st : ClassifyState) (h : isB op.tag = true) :
    traverse isB out op st =
      traverseInputs isB out op op.inputs (classifyStep out op st) := by
  rw [traverse.eq_def, if_pos h]

theorem traverse_conv_eq (isB : String → Bool) (out op : TOp)
    (st : ClassifyState) (h1 : isB op.tag = false)
    (h2 : op.tag = "conv2d_dense") :
    traverse isB out op st =
      .ok { st with conv2d_res := st.conv2d_res ++ [op] } := by
  rw [traverse.eq_def, if_neg (by simp [h1]), if_pos h2]

theorem traverseInputs_nil_eq (isB : String → Bool) (out consumer : TOp)
    (st : ClassifyState) : traverseInputs isB out consumer [] st = .ok st := by
  rw [traverseInputs.eq_def]

theorem traverseInputs_cons_ph_eq (isB : String → Bool) (out consumer t : TOp)
    (rest : List TOp) (st : ClassifyState) (h : t.isPlaceholder = true) :
    traverseInputs isB out consumer (t :: rest) st =
      traverseInputs isB out consumer rest
        { st with ewise_inputs := st.ewise_inputs ++ [(consumer, t)] } := by
  rw [traverseInputs.eq_def]
  dsimp only
  rw [if_pos h]

theorem traverseInputs_cons_op_eq (isB : String → Bool) (out consumer t : TOp)
    (rest : List TOp) (st st2 : ClassifyState) (h : t.isPlaceholder = false)
    (htr : traverse isB out t st = .ok st2) :
    traverseInputs isB out consumer (t :: rest) st =
      traverseInputs isB out consumer rest st2 := by
  rw [traverseInputs.eq_def]
  dsimp only
  rw [if_neg (by simp [h]), htr]

theorem traverse_E0_step (k : Nat) (st : ClassifyState) :
    traverse bcastTags (outRep k) E0 st =
      .ok ⟨st.const_ops, st.ewise_inputs ++ [(E0, P0)],
           st.ewise_ops ++ [E0], st.conv2d_res⟩ := by
  have hcs : classifyStep (outRep k) E0 st =
      ⟨st.const_ops, st.ewise_inputs, st.ewise_ops ++ [E0], st.conv2d_res⟩ := by
    unfold classifyStep
    rw [if_neg (E0_ne_outRep k)]
    rw [if_neg (by decide : ¬ (E0.numAxes = 0))]
  rw [traverse_bcast_eq _ _ _ _ (by decide : bcastTags E0.tag = true)]
  rw [hcs]
  rw [show E0.inputs = [P0] from rfl]
  rw [traverseInputs_cons_ph_eq _ _ _ _ _ _ (by decide : P0.isPlaceholder = true)]
  dsimp only
  rw [traverseInputs_nil_eq]

theorem traverseInputs_rep (n : Nat) :
    ∀ (k : Nat) (st : ClassifyState),
      traverseInputs bcastTags (outRep n) (outRep n)
          (List.replicate k E0 ++ [C0]) st =
        .ok ⟨st.const_ops, st.ewise_inputs ++ List.replicate k (E0, P0),
             st.ewise_ops ++ List.replicate k E0, st.conv2d_res ++ [C0]⟩ := by
  intro k
  induction k with
  | zero =>
    intro st
    rw [List.replicate_zero, List.nil_append]
    rw [traverseInputs_cons_op_eq _ _ _ _ _ _ _ (by decide)
      (traverse_conv_eq _ _ _ _ (by decide) (by decide))]
    rw [traverseInputs_nil_eq]
    simp
  | succ m ih =>
    intro st
    rw [List.replicate_succ, List.cons_append]
    rw [traverseInputs_cons_op_eq _ _ _ _ _ _ _ (by decide)
      (traverse_E0_step n st)]
    rw [ih]
    simp [List.replicate_succ]

/-- C5 amended: the traversal visits a node once per consumer reference, not
once in total: for every `k`, a graph whose output references the
elementwise node `E0` `k` times classifies successfully (one conv node) with
`E0` appended to `ewise_ops` exactly `k` times — so an op is appended at
most once exactly when it is referenced at most once (tree-shaped fusion
patterns). -/
theorem classifier_visits_once_per_reference (k : Nat) :
    classify bcastTags (outRep k) =
      .ok ⟨[], List.replicate k (E0, P0), List.replicate k E0, [C0]⟩ ∧
    (List.replicate k E0).count E0 = k := by
  constructor
  · unfold classify
    rw [traverse_bcast_eq _ _ _ _
      (by simp [outRep, TOp.tag, bcastTags] : bcastTags (outRep k).tag = true)]
    rw [show classifyStep (outRep k) (outRep k) ⟨[], [], [], []⟩ = ⟨[], [], [], []⟩ from by
      unfold classifyStep; rw [if_pos rfl]]
    rw [show (outRep k).inputs = List.replicate k E0 ++ [C0] from rfl]
    rw [traverseInputs_rep]
    simp
  · simp

/-- C10: before any traversal or schedule construction,
`schedule_conv2d_packed` asserts that the dtype string of the first input
tensor of the output operation contains "int"; every graph violating this
fails immediately with `AssertionError` (line 79), regardless of the rest of
the graph. -/
theorem schedule_conv2d_packed_int_precondition (isB : String → Bool)
    (output t : TOp) (rest : List TOp) (hin : output.inputs = t :: rest)
    (hdt : strContains t.dtype ("int") = false) :
    schedule_conv2d_packed_classify isB [output] = .error .assertionError := by
  unfold schedule_conv2d_packed_classify
  dsimp only
  rw [hin]
  simp [hdt]

/-- First input tensor of the C10 witness graph: a float placeholder. -/
def tF : TOp := .placeholder 1 "float32"

/-- Output op of the C10 witness graph. -/
def outF : TOp := .compute "elemwise" "float32" 6 [tF]

/-- Witness for C10: a graph whose first input tensor has dtype
"float32" (which does not contain "int") is rejected with an assertion
error before any traversal. -/
theorem schedule_conv2d_packed_int_precondition_witness :
    strContains (TOp.dtype tF) ("int") = false ∧
    schedule_conv2d_packed_classify bcastTags [outF] = .error .assertionError :=
  ⟨by decide,
   schedule_conv2d_packed_int_precondition bcastTags outF tF [] rfl (by decide)⟩

/-! ## Schedule substrate model

The TVM scheduling substrate (stage creation, axis split/reorder, scope
tagging, compute_at, cache_read, pragma/tensorize/bind annotations) is
consumed by the source as an external service; it is modelled here as
explicit state over named stages and axes.  Stages are identified by the op
they wrap; axes carry a structural identity (`AxisId`) so that split-created
axes are distinct from all others, plus their extent. -/

/-- Stage identifiers for the conv2d / fused-add schedules: the final
output, the convolution stage, the pad stage (when padding was inserted),
the cached activation / weight copies, and the `i`-th elementwise,
constant, or cached-elementwise-input stage. -/
inductive StageId where
  | output
  | conv
  | padStage
  | cdataStage
  | ckernelStage
  | ewise (i : Nat)
  | constOp (i : Nat)
  | cacheEwise (i : Nat)
deriving DecidableEq, Repr

/-- Structural identity of a loop axis: a pre-existing axis of some stage
(`base`), the outer/inner halves produced by a split, or an axis of a
cache-read stage. -/
inductive AxisId where
  | base (n : Nat)
  | outer (a : AxisId)
  | inner (a : AxisId)
  | cache (s : StageId) (i : Nat)
deriving DecidableEq, Repr

/-- A loop axis: identity plus extent. -/
structure Axis where
  id : AxisId
  extent : Int
deriving DecidableEq, Repr

/-- Per-stage schedule state: leaf iteration order, memory scope, attach
point (`compute_at`), pragma annotations, inline flag, tensorize binding
and virtual-thread bindings. -/
structure Stage where
  leaf : List Axis := []
  scope : Option String := none
  attach : Option (StageId × Axis) := none
  pragmas : List (Axis × String) := []
  inlined : Bool := false
  tensorized : Option (Axis × String) := none
  binds : List (Axis × String) := []

/-- Whole-schedule state, together with the tunable declarations recorded by
`cfg.define_split` / `cfg.define_knob` (name and the axis the split space is
declared on), the splits performed, the cache-read stages created, and
whether `AutoInlineInjective` ran. -/
structure SchedState where
  stages : StageId → Stage
  defines : List (String × Axis) := []
  knobs : List (String × List Nat) := []
  splits : List (StageId × Axis × Axis × Axis) := []
  cacheReads : List StageId := []
  autoInlined : Bool := false

/-- Update one stage of the schedule. -/
def updStage (st : SchedState) (sid : StageId) (f : Stage → Stage) : SchedState :=
  { st with stages := fun s => if s = sid then f (st.stages s) else st.stages s }

/-- Model of `s[x].set_scope(scope)`. -/
def setScope (st : SchedState) (sid : StageId) (sc : String) : SchedState :=
  updStage st sid fun g => { g with scope := some sc }

/-- Model of `s[x].pragma(axis, tag)`. -/
def addPragma (st : SchedState) (sid : StageId) (a : Axis) (p : String) : SchedState :=
  updStage st sid fun g => { g with pragmas := g.pragmas ++ [(a, p)] }

/-- Model of `s[x].compute_at(s[other], axis)`. -/
def computeAt (st : SchedState) (sid osid : StageId) (a : Axis) : SchedState :=
  updStage st sid fun g => { g with attach := some (osid, a) }

/-- Model of `s[x].compute_inline()`. -/
def computeInline (st : SchedState) (sid : StageId) : SchedState :=
  updStage st sid fun g => { g with inlined := true }

/-- Model of `s[x].tensorize(axis, intrin)`. -/
def tensorizeAt (st : SchedState) (sid : StageId) (a : Axis) (intrin : String) :
    SchedState :=
  updStage st sid fun g => { g with tensorized := some (a, intrin) }

/-- Model of `s[x].bind(axis, te.thread_axis(name))`. -/
def bindThread (st : SchedState) (sid : StageId) (a : Axis) (tname : String) :
    SchedState :=
  updStage st sid fun g => { g with binds := g.binds ++ [(a, tname)] }

/-- Ceiling division, the outer extent TVM assigns to a split. -/
def ceilDiv (a b : Int) : Int := Int.fdiv (a + b - 1) b

/-- Outer half of splitting axis `a` by `factor`: fresh identity, extent
`ceil(extent / factor)`. -/
def tileOuter (a : Axis) (factor : Int) : Axis := ⟨.outer a.id, ceilDiv a.extent factor⟩

/-- Inner half of splitting axis `a` by `factor`. -/
def tileInner (a : Axis) (factor : Int) : Axis := ⟨.inner a.id, factor⟩

/-- Model of `outer, inner = s[x].split(axis, factor)`: the axis is replaced
in the leaf order by the (outer, inner) pair at its position, and the split
is recorded. -/
def splitAxis (st : SchedState) (sid : StageId) (a : Axis) (factor : Int) :
    SchedState × Axis × Axis :=
  let o : Axis := tileOuter a factor
  let i : Axis := tileInner a factor
  let st' := updStage st sid fun g =>
    { g with leaf := g.leaf.flatMap (fun b => if b = a then [o, i] else [b]) }
  ({ st' with splits := st'.splits ++ [(sid, a, o, i)] }, o, i)

/-- Membership test for axes used by `reorderFill`. -/
def axElem (a : Axis) : List Axis → Bool
  | [] => false
  | b :: rest => if b = a then true else axElem a rest

/-- TVM reorder semantics: the listed axes are placed, in the listed order,
at the leaf positions previously occupied by any of them; other axes keep
their positions. -/
def reorderFill (ord : List Axis) : List Axis → List Axis → List Axis
  | [], _ => []
  | a :: rest, q =>
    if axElem a ord then
      match q with
      | [] => a :: reorderFill ord rest []
      | b :: q2 => b :: reorderFill ord rest q2
    else a :: reorderFill ord rest q

/-- Model of `s[x].reorder(*axes)`. -/
def reorderStage (st : SchedState) (sid : StageId) (ord : List Axis) : SchedState :=
  updStage st sid fun g => { g with leaf := reorderFill ord g.leaf ord }

/-- Model of `s.cache_read(tensor, scope, readers)`: a new stage is created
with the tensor's axes (fresh identities) in the given scope. -/
def cacheRead (st : SchedState) (newSid : StageId) (sc : String)
    (extents : List Int) : SchedState :=
  let axs := (List.range extents.length).map
    (fun i => Axis.mk (AxisId.cache newSid i) (extents.getD i 0))
  { (updStage st newSid fun g => { g with leaf := axs, scope := some sc }) with
    cacheReads := st.cacheReads ++ [newSid] }

/-- Model of `cfg.define_split(name, axis, num_outputs=2)`: records the name
and the axis whose extent the split space is declared on. -/
def defineSplit (st : SchedState) (name : String) (a : Axis) : SchedState :=
  { st with defines := st.defines ++ [(name, a)] }

/-- Model of `cfg.define_knob(name, values)`. -/
def defineKnob (st : SchedState) (name : String) (vals : List Nat) : SchedState :=
  { st with knobs := st.knobs ++ [(name, vals)] }

/-- `s[x].op.axis[0]`, used as the anchor of DMA and ALU pragmas. -/
def stageAxis0 (st : SchedState) (sid : StageId) : Axis :=
  ((st.stages sid).leaf).getD 0 ⟨.base 0, 0⟩

/-- A resolved autotuning configuration for the conv2d schedule: the five
2-way split entities (TVM applies `SplitEntity.apply` by splitting with the
inner size as the factor) and the two threading knobs. -/
structure Cfg where
  tile_b : Int × Int
  tile_h : Int × Int
  tile_w : Int × Int
  tile_ci : Int × Int
  tile_co : Int × Int
  oc_nthread : Nat
  h_nthread : Nat

/-- Memory scopes and annotation tags of the VTA environment (external to
this source file; opaque strings here). -/
def inpScope : String := "local.inp_buffer"

def wgtScope : String := "local.wgt_buffer"

def accScope : String := "local.acc_buffer"

def dmaCopy : String := "dma_copy"

def aluTag : String := "alu"

def gemmTag : String := "gemm"

/-! ### The conv2d schedule model

The classifier part was settled above over explicit graphs; the staging part
below takes the classified graph summary as input: the constant shapes, the
presence of a pad stage, and the numbers of elementwise ops, elementwise
placeholder inputs, and constant ops found by the classifier. -/

/-- Summary of a classified conv2d compute graph. -/
structure ConvGraphInfo where
  ishape : List Int
  kshape : List Int
  oshape : List Int
  padShape : List Int
  hasPad : Bool
  nEwise : Nat
  nEwiseIn : Nat
  nConst : Nat

/-- Axes of the final output stage. -/
def outAx (g : ConvGraphInfo) (i : Nat) : Axis := ⟨.base i, g.oshape.getD i 0⟩

/-- Iteration axes of the conv2d stage (same extents as the output). -/
def convAx (g : ConvGraphInfo) (i : Nat) : Axis := ⟨.base (6 + i), g.oshape.getD i 0⟩

/-- Reduction axes of the conv2d stage in declaration order
`[k_o, d_i, d_j, k_i]` (line 61): extents `ishape[1]`, `kshape[2]`,
`kshape[3]`, `ishape[-1]`. -/
def redAx (g : ConvGraphInfo) (i : Nat) : Axis :=
  ⟨.base (12 + i),
   [g.ishape.getD 1 0, g.kshape.getD 2 0, g.kshape.getD 3 0,
    g.ishape.getD 5 0].getD i 0⟩

/-- Axes of the pad stage (present only when padding was inserted). -/
def padAx (g : ConvGraphInfo) (i : Nat) : Axis :=
  ⟨.base (16 + i), g.padShape.getD i 0⟩

/-- Axes of the `j`-th elementwise stage. -/
def ewiseAx (g : ConvGraphInfo) (j i : Nat) : Axis :=
  ⟨.base (22 + 6 * j + i), g.oshape.getD i 0⟩

/-- Initial leaf order of every stage right after `te.create_schedule`. -/
def convInitLeaf (g : ConvGraphInfo) : StageId → List Axis
  | .output => [outAx g 0, outAx g 1, outAx g 2, outAx g 3, outAx g 4, outAx g 5]
  | .conv => [convAx g 0, convAx g 1, convAx g 2, convAx g 3, convAx g 4,
              convAx g 5, redAx g 0, redAx g 1, redAx g 2, redAx g 3]
  | .padStage => if g.hasPad then
      [padAx g 0, padAx g 1, padAx g 2, padAx g 3, padAx g 4, padAx g 5] else []
  | .ewise j => if j < g.nEwise then
      [ewiseAx g j 0, ewiseAx g j 1, ewiseAx g j 2, ewiseAx g j 3,
       ewiseAx g j 4, ewiseAx g j 5] else []
  | _ => []

/-- Schedule state produced by `te.create_schedule(output.op)` (line 100). -/
def convInit (g : ConvGraphInfo) : SchedState :=
  { stages := fun sid => { leaf := convInitLeaf g sid } }

/-- Cache-read stages for elementwise inputs (lines 134-137); the shapes of
those tensors are not tracked (extent-0 axes), only stage identity and
annotations matter to the claims. -/
def cacheEwiseLoop (n : Nat) (st : SchedState) : SchedState :=
  (List.range n).foldl
    (fun s i => cacheRead s (.cacheEwise i) accScope [0, 0, 0, 0, 0, 0]) st

/-- Elementwise scope assignment and ALU pragma (lines 140-142). -/
def ewiseScopeLoop (n : Nat) (st : SchedState) : SchedState :=
  (List.range n).foldl
    (fun s i => addPragma (setScope s (.ewise i) accScope) (.ewise i)
      (stageAxis0 s (.ewise i)) aluTag) st

/-- Constant-op inlining (lines 144-145). -/
def constInlineLoop (n : Nat) (st : SchedState) : SchedState :=
  (List.range n).foldl (fun s i => computeInline s (.constOp i)) st

/-- Elementwise `compute_at` at the store point (lines 157-158). -/
def ewiseAttachLoop (a : Axis) (n : Nat) (st : SchedState) : SchedState :=
  (List.range n).foldl (fun s i => computeAt s (.ewise i) .output a) st

/-- Cached-elementwise-input `compute_at` at the store point plus DMA pragma
(lines 160-162). -/
def cacheAttachLoop (a : Axis) (n : Nat) (st : SchedState) : SchedState :=
  (List.range n).foldl
    (fun s i => addPragma (computeAt s (.cacheEwise i) .output a)
      (.cacheEwise i) (stageAxis0 s (.cacheEwise i)) dmaCopy) st

/-- Space definition, scope setup and inlining of `schedule_conv2d_packed`
(lines 100-145).  Line 103 binds `b, c_o, x_i, x_j` to the conv stage's own
iteration axes, and line 104 binds `c_i` to the first reduce axis — which in
declaration order `[k_o, d_i, d_j, k_i]` is the input-outer-channel axis
`k_o`; so `tile_ci` is declared on `k_o`. -/
def convSchedPre (g : ConvGraphInfo) : SchedState :=
  let st := convInit g
  let st := defineSplit st ("tile_b") (convAx g 0)
  let st := defineSplit st ("tile_h") (convAx g 2)
  let st := defineSplit st ("tile_w") (convAx g 3)
  let st := defineSplit st ("tile_ci") (redAx g 0)
  let st := defineSplit st ("tile_co") (convAx g 1)
  let st := defineKnob st ("oc_nthread") [1, 2]
  let st := defineKnob st ("h_nthread") [1, 2]
  let st := if g.hasPad then setScope st .padStage inpScope
            else cacheRead st .cdataStage inpScope g.ishape
  let st := cacheRead st .ckernelStage wgtScope g.kshape
  let st := setScope st .conv accScope
  let st := cacheEwiseLoop g.nEwiseIn st
  let st := ewiseScopeLoop g.nEwise st
  let st := constInlineLoop g.nConst st
  st

/-- Virtual-threading step (lines 165-168 and 171-174): split the given
outer axis by the thread count, reorder the inner half `v_t` ahead of the
batch axis, and bind it to a `cthread` virtual thread axis. -/
def threadSplit (st : SchedState) (a xbo : Axis) (nt : Nat) : SchedState :=
  let q := splitAxis st .output a (Int.ofNat nt)
  bindThread (reorderStage q.1 .output [q.2.2, xbo]) .output q.2.2 ("cthread")

/-- Result of the conv2d schedule model: the final state plus the named axes
the source binds (`x_bo` through `x_ci`, the store point, and the outer and
inner halves of the `tile_ci` split of `k_o`), and the stage that plays the
role of `cdata`. -/
structure ConvSchedResult where
  st : SchedState
  x_bo : Axis
  x_co0 : Axis
  x_co1 : Axis
  x_i0 : Axis
  x_i1 : Axis
  x_j0 : Axis
  x_j1 : Axis
  x_bi : Axis
  x_ci : Axis
  store_pt : Axis
  k_o_outer : Axis
  k_o_inner : Axis
  cdataId : StageId

/-- Shallow embedding of the staging part of `schedule_conv2d_packed`
(lines 100-190), in source order: space definition and scopes, output
tiling (`tile_co`, `tile_h`, `tile_w` applied with their inner sizes as
factors) and reorder, attaches at `store_pt = x_j0`, the two optional
virtual-threading splits, the conv-stage reduction reorder, the `tile_ci`
split applied to `k_o` with the cached activation/weight attached at its
outer half, and the DMA / gemm / ALU instruction annotations. -/
def schedule_conv2d_packed_sched (cfg : Cfg) (g : ConvGraphInfo) : ConvSchedResult :=
  let st := convSchedPre g
  let cdataId := if g.hasPad then StageId.padStage else StageId.cdataStage
  -- tile (lines 148-153)
  let x_bo := outAx g 0
  let x_bi := outAx g 4
  let x_ci := outAx g 5
  let p1 := splitAxis st .output (outAx g 1) cfg.tile_co.2
  let st := p1.1
  let x_co0 := p1.2.1
  let x_co1 := p1.2.2
  let p2 := splitAxis st .output (outAx g 2) cfg.tile_h.2
  let st := p2.1
  let x_i0 := p2.2.1
  let x_i1 := p2.2.2
  let p3 := splitAxis st .output (outAx g 3) cfg.tile_w.2
  let st := p3.1
  let x_j0 := p3.2.1
  let x_j1 := p3.2.2
  let st := reorderStage st .output
    [x_bo, x_i0, x_co0, x_j0, x_co1, x_i1, x_j1, x_bi, x_ci]
  let store_pt := x_j0
  -- set all compute scopes (lines 156-162)
  let st := computeAt st .conv .output store_pt
  let st := ewiseAttachLoop store_pt g.nEwise st
  let st := cacheAttachLoop store_pt g.nEwiseIn st
  -- virtual threading (lines 165-174)
  let st := if 1 < cfg.oc_nthread then threadSplit st x_co0 x_bo cfg.oc_nthread
    else st
  let st := if 1 < cfg.h_nthread then threadSplit st x_i0 x_bo cfg.h_nthread
    else st
  -- conv-stage reduction reorder (lines 176-178)
  let st := reorderStage st .conv
    [convAx g 0, redAx g 0, convAx g 3, redAx g 2, redAx g 1,
     convAx g 1, convAx g 2, convAx g 4, convAx g 5, redAx g 3]
  -- `k_o, _ = cfg['tile_ci'].apply(s, conv2d_stage, k_o)` and cache attach
  -- (lines 180-182)
  let p4 := splitAxis st .conv (redAx g 0) cfg.tile_ci.2
  let st := p4.1
  let k_o_outer := p4.2.1
  let k_o_inner := p4.2.2
  let st := computeAt st cdataId .conv k_o_outer
  let st := computeAt st .ckernelStage .conv k_o_outer
  -- VTA instructions (lines 185-188)
  let st := addPragma st cdataId (stageAxis0 st cdataId) dmaCopy
  let st := addPragma st .ckernelStage (stageAxis0 st .ckernelStage) dmaCopy
  let st := tensorizeAt st .conv (convAx g 4) gemmTag
  let st := addPragma st .output x_co1 dmaCopy
  ⟨st, x_bo, x_co0, x_co1, x_i0, x_i1, x_j0, x_j1, x_bi, x_ci, store_pt,
   k_o_outer, k_o_inner, cdataId⟩

/-! ### Projection lemmas for the schedule primitives -/

@[simp] theorem updStage_defines_eq (st : SchedState) (sid : StageId)
    (f : Stage → Stage) : (updStage st sid f).defines = st.defines := rfl

@[simp] theorem updStage_knobs_eq (st : SchedState) (sid : StageId)
    (f : Stage → Stage) : (updStage st sid f).knobs = st.knobs := rfl

@[simp] theorem updStage_splits_eq (st : SchedState) (sid : StageId)
    (f : Stage → Stage) : (updStage st sid f).splits = st.splits := rfl

@[simp] theorem updStage_cacheReads_eq (st : SchedState) (sid : StageId)
    (f : Stage → Stage) : (updStage st sid f).cacheReads = st.cacheReads := rfl

@[simp] theorem updStage_autoInlined_eq (st : SchedState) (sid : StageId)
    (f : Stage → Stage) : (updStage st sid f).autoInlined = st.autoInlined := rfl

@[simp] theorem updStage_stages_same (st : SchedState) (sid : StageId)
    (f : Stage → Stage) : (updStage st sid f).stages sid = f (st.stages sid) := by
  simp [updStage]

@[simp] theorem updStage_stages_ne (st : SchedState) (sid : StageId)
    (f : Stage → Stage) (s : StageId) (h : ¬ (s = sid)) :
    (updStage st sid f).stages s = st.stages s := by
  simp [updStage, h]

@[simp] theorem setScope_leaf (st : SchedState) (sid : StageId) (sc : String)
    (s : StageId) : ((setScope st sid sc).stages s).leaf = (st.stages s).leaf := by
  unfold setScope updStage
  dsimp only
  split <;> rfl

@[simp] theorem setScope_attach (st : SchedState) (sid : StageId) (sc : String)
    (s : StageId) : ((setScope st sid sc).stages s).attach = (st.stages s).attach := by
  unfold setScope updStage
  dsimp only
  split <;> rfl

@[simp] theorem addPragma_leaf (st : SchedState) (sid : StageId) (a : Axis)
    (p : String) (s : StageId) :
    ((addPragma st sid a p).stages s).leaf = (st.stages s).leaf := by
  unfold addPragma updStage
  dsimp only
  split <;> rfl

@[simp] theorem addPragma_attach (st : SchedState) (sid : StageId) (a : Axis)
    (p : String) (s : StageId) :
    ((addPragma st sid a p).stages s).attach = (st.stages s).attach := by
  unfold addPragma updStage
  dsimp only
  split <;> rfl

@[simp] theorem addPragma_scope (st : SchedState) (sid : StageId) (a : Axis)
    (p : String) (s : StageId) :
    ((addPragma st sid a p).stages s).scope = (st.stages s).scope := by
  unfold addPragma updStage
  dsimp only
  split <;> rfl

@[simp] theorem computeAt_leaf (st : SchedState) (sid osid : StageId) (a : Axis)
    (s : StageId) : ((computeAt st sid osid a).stages s).leaf = (st.stages s).leaf := by
  unfold computeAt updStage
  dsimp only
  split <;> rfl

@[simp] theorem computeAt_attach_same (st : SchedState) (sid osid : StageId)
    (a : Axis) : ((computeAt st sid osid a).stages sid).attach = some (osid, a) := by
  unfold computeAt updStage
  simp

@[simp] theorem computeAt_attach_ne (st : SchedState) (sid osid : StageId)
    (a : Axis) (s : StageId) (h : ¬ (s = sid)) :
    ((computeAt st sid osid a).stages s).attach = (st.stages s).attach := by
  unfold computeAt updStage
  simp [h]

@[simp] theorem computeInline_leaf (st : SchedState) (sid : StageId) (s : StageId) :
    ((computeInline st sid).stages s).leaf = (st.stages s).leaf := by
  unfold computeInline updStage
  dsimp only
  split <;> rfl

@[simp] theorem computeInline_attach (st : SchedState) (sid : StageId) (s : StageId) :
    ((computeInline st sid).stages s).attach = (st.stages s).attach := by
  unfold computeInline updStage
  dsimp only
  split <;> rfl

@[simp] theorem tensorizeAt_leaf (st : SchedState) (sid : StageId) (a : Axis)
    (intrin : String) (s : StageId) :
    ((tensorizeAt st sid a intrin).stages s).leaf = (st.stages s).leaf := by
  unfold tensorizeAt updStage
  dsimp only
  split <;> rfl

@[simp] theorem tensorizeAt_attach (st : SchedState) (sid : StageId) (a : Axis)
    (intrin : String) (s : StageId) :
    ((tensorizeAt st sid a intrin).stages s).attach = (st.stages s).attach := by
  unfold tensorizeAt updStage
  dsimp only
  split <;> rfl

@[simp] theorem bindThread_leaf (st : SchedState) (sid : StageId) (a : Axis)
    (tname : String) (s : StageId) :
    ((bindThread st sid a tname).stages s).leaf = (st.stages s).leaf := by
  unfold bindThread updStage
  dsimp only
  split <;> rfl

@[simp] theorem bindThread_attach (st : SchedState) (sid : StageId) (a : Axis)
    (tname : String) (s : StageId) :
    ((bindThread st sid a tname).stages s).attach = (st.stages s).attach := by
  unfold bindThread updStage
  dsimp only
  split <;> rfl

@[simp] theorem reorderStage_leaf_same (st : SchedState) (sid : StageId)
    (ord : List Axis) : ((reorderStage st sid ord).stages sid).leaf =
      reorderFill ord ((st.stages sid).leaf) ord := by
  unfold reorderStage updStage
  simp

@[simp] theorem reorderStage_leaf_ne (st : SchedState) (sid : StageId)
    (ord : List Axis) (s : StageId) (h : ¬ (s = sid)) :
    ((reorderStage st sid ord).stages s).leaf = (st.stages s).leaf := by
  unfold reorderStage updStage
  simp [h]

@[simp] theorem reorderStage_attach (st : SchedState) (sid : StageId)
    (ord : List Axis) (s : StageId) :
    ((reorderStage st sid ord).stages s).attach = (st.stages s).attach := by
  unfold reorderStage updStage
  dsimp only
  split <;> rfl

@[simp] theorem splitAxis_snd_fst (st : SchedState) (sid : StageId) (a : Axis)
    (factor : Int) : (splitAxis st sid a factor).2.1 = tileOuter a factor := rfl

@[simp] theorem splitAxis_snd_snd (st : SchedState) (sid : StageId) (a : Axis)
    (factor : Int) : (splitAxis st sid a factor).2.2 = tileInner a factor := rfl

@[simp] theorem splitAxis_splits (st : SchedState) (sid : StageId) (a : Axis)
    (factor : Int) : (splitAxis st sid a factor).1.splits =
      st.splits ++ [(sid, a, tileOuter a factor, tileInner a factor)] := rfl

@[simp] theorem splitAxis_defines (st : SchedState) (sid : StageId) (a : Axis)
    (factor : Int) : (splitAxis st sid a factor).1.defines = st.defines := rfl

@[simp] theorem splitAxis_leaf_same (st : SchedState) (sid : StageId) (a : Axis)
    (factor : Int) : ((splitAxis st sid a factor).1.stages sid).leaf =
      ((st.stages sid).leaf).flatMap
        (fun b => if b = a then [tileOuter a factor, tileInner a factor] else [b]) := by
  unfold splitAxis updStage
  simp

@[simp] theorem splitAxis_leaf_ne (st : SchedState) (sid : StageId) (a : Axis)
    (factor : Int) (s : StageId) (h : ¬ (s = sid)) :
    ((splitAxis st sid a factor).1.stages s).leaf = (st.stages s).leaf := by
  unfold splitAxis updStage
  simp [h]

@[simp] theorem splitAxis_attach (st : SchedState) (sid : StageId) (a : Axis)
    (factor : Int) (s : StageId) :
    ((splitAxis st sid a factor).1.stages s).attach = (st.stages s).attach := by
  unfold splitAxis updStage
  dsimp only
  split <;> rfl

@[simp] theorem cacheRead_attach (st : SchedState) (newSid : StageId)
    (sc : String) (extents : List Int) (s : StageId) :
    ((cacheRead st newSid sc extents).stages s).attach = (st.stages s).attach := by
  unfold cacheRead updStage
  dsimp only
  split <;> rfl

@[simp] theorem cacheRead_leaf_ne (st : SchedState) (newSid : StageId)
    (sc : String) (extents : List Int) (s : StageId) (h : ¬ (s = newSid)) :
    ((cacheRead st newSid sc extents).stages s).leaf = (st.stages s).leaf := by
  unfold cacheRead updStage
  simp [h]

@[simp] theorem cacheRead_splits (st : SchedState) (newSid : StageId)
    (sc : String) (extents : List Int) :
    (cacheRead st newSid sc extents).splits = st.splits := rfl

@[simp] theorem cacheRead_defines (st : SchedState) (newSid : StageId)
    (sc : String) (extents : List Int) :
    (cacheRead st newSid sc extents).defines = st.defines := rfl

@[simp] theorem defineSplit_stages (st : SchedState) (name : String) (a : Axis) :
    (defineSplit st name a).stages = st.stages := rfl

@[simp] theorem defineSplit_splits (st : SchedState) (name : String) (a : Axis) :
    (defineSplit st name a).splits = st.splits := rfl

@[simp] theorem defineKnob_stages (st : SchedState) (name : String)
    (vals : List Nat) : (defineKnob st name vals).stages = st.stages := rfl

@[simp] theorem defineKnob_splits (st : SchedState) (name : String)
    (vals : List Nat) : (defineKnob st name vals).splits = st.splits := rfl

@[simp] theorem defineKnob_defines (st : SchedState) (name : String)
    (vals : List Nat) : (defineKnob st name vals).defines = st.defines := rfl

/-- Invariance of a projection under a fold, given per-step invariance. -/
theorem foldl_proj_invar {α : Type} (proj : SchedState → α)
    (f : SchedState → Nat → SchedState) :
    ∀ (l : List Nat), (∀ s i, i ∈ l → proj (f s i) = proj s) →
    ∀ st, proj (l.foldl f st) = proj st := by
  intro l
  induction l with
  | nil => intro _ st; rfl
  | cons a t ih =>
    intro hf st
    rw [List.foldl_cons, ih (fun s i hi => hf s i (List.mem_cons_of_mem a hi)),
      hf st a (List.mem_cons_self a t)]

/-! ### Loop-level lemmas for the conv2d schedule -/

theorem cacheEwiseLoop_leaf (n : Nat) (s : StageId)
    (h : ∀ i : Nat, ¬ (s = StageId.cacheEwise i)) (st : SchedState) :
    ((cacheEwiseLoop n st).stages s).leaf = (st.stages s).leaf :=
  foldl_proj_invar (fun x => (x.stages s).leaf) _ (List.range n)
    (fun x i _ => by simp [h i]) st

theorem cacheEwiseLoop_attach (n : Nat) (s : StageId) (st : SchedState) :
    ((cacheEwiseLoop n st).stages s).attach = (st.stages s).attach :=
  foldl_proj_invar (fun x => (x.stages s).attach) _ (List.range n)
    (fun x i _ => by simp) st

theorem cacheEwiseLoop_splits (n : Nat) (st : SchedState) :
    (cacheEwiseLoop n st).splits = st.splits :=
  foldl_proj_invar (fun x => x.splits) _ (List.range n) (fun x i _ => by simp) st

theorem cacheEwiseLoop_defines (n : Nat) (st : SchedState) :
    (cacheEwiseLoop n st).defines = st.defines :=
  foldl_proj_invar (fun x => x.defines) _ (List.range n) (fun x i _ => by simp) st

theorem ewiseScopeLoop_leaf (n : Nat) (s : StageId) (st : SchedState) :
    ((ewiseScopeLoop n st).stages s).leaf = (st.stages s).leaf :=
  foldl_proj_invar (fun x => (x.stages s).leaf) _ (List.range n)
    (fun x i _ => by simp) st

theorem ewiseScopeLoop_attach (n : Nat) (s : StageId) (st : SchedState) :
    ((ewiseScopeLoop n st).stages s).attach = (st.stages s).attach :=
  foldl_proj_invar (fun x => (x.stages s).attach) _ (List.range n)
    (fun x i _ => by simp) st

theorem ewiseScopeLoop_splits (n : Nat) (st : SchedState) :
    (ewiseScopeLoop n st).splits = st.splits :=
  foldl_proj_invar (fun x => x.splits) _ (List.range n)
    (fun x i _ => by simp [addPragma, setScope]) st

theorem ewiseScopeLoop_defines (n : Nat) (st : SchedState) :
    (ewiseScopeLoop n st).defines = st.defines :=
  foldl_proj_invar (fun x => x.defines) _ (List.range n)
    (fun x i _ => by simp [addPragma, setScope]) st

theorem constInlineLoop_leaf (n : Nat) (s : StageId) (st : SchedState) :
    ((constInlineLoop n st).stages s).leaf = (st.stages s).leaf :=
  foldl_proj_invar (fun x => (x.stages s).leaf) _ (List.range n)
    (fun x i _ => by simp) st

theorem constInlineLoop_attach (n : Nat) (s : StageId) (st : SchedState) :
    ((constInlineLoop n st).stages s).attach = (st.stages s).attach :=
  foldl_proj_invar (fun x => (x.stages s).attach) _ (List.range n)
    (fun x i _ => by simp) st

theorem constInlineLoop_splits (n : Nat) (st : SchedState) :
    (constInlineLoop n st).splits = st.splits :=
  foldl_proj_invar (fun x => x.splits) _ (List.range n)
    (fun x i _ => by simp [computeInline]) st

theorem constInlineLoop_defines (n : Nat) (st : SchedState) :
    (constInlineLoop n st).defines = st.defines :=
  foldl_proj_invar (fun x => x.defines) _ (List.range n)
    (fun x i _ => by simp [computeInline]) st

theorem ewiseAttachLoop_leaf (a : Axis) (n : Nat) (s : StageId) (st : SchedState) :
    ((ewiseAttachLoop a n st).stages s).leaf = (st.stages s).leaf :=
  foldl_proj_invar (fun x => (x.stages s).leaf) _ (List.range n)
    (fun x i _ => by simp) st

theorem ewiseAttachLoop_attach_other (a : Axis) (n : Nat) (s : StageId)
    (h : ∀ i : Nat, ¬ (s = StageId.ewise i)) (st : SchedState) :
    ((ewiseAttachLoop a n st).stages s).attach = (st.stages s).attach :=
  foldl_proj_invar (fun x => (x.stages s).attach) _ (List.range n)
    (fun x i _ => by simp [h i]) st

theorem ewiseAttachLoop_splits (a : Axis) (n : Nat) (st : SchedState) :
    (ewiseAttachLoop a n st).splits = st.splits :=
  foldl_proj_invar (fun x => x.splits) _ (List.range n)
    (fun x i _ => by simp [computeAt]) st

theorem ewiseAttachLoop_defines (a : Axis) (n : Nat) (st : SchedState) :
    (ewiseAttachLoop a n st).defines = st.defines :=
  foldl_proj_invar (fun x => x.defines) _ (List.range n)
    (fun x i _ => by simp [computeAt]) st

theorem ewiseAttachLoop_attach_mem (a : Axis) :
    ∀ (n j : Nat), j < n → ∀ st : SchedState,
      ((ewiseAttachLoop a n st).stages (.ewise j)).attach =
        some (StageId.output, a) := by
  intro n
  induction n with
  | zero => intro j hj; omega
  | succ m ih =>
    intro j hj st
    unfold ewiseAttachLoop
    rw [List.range_succ, List.foldl_append, List.foldl_cons, List.foldl_nil]
    by_cases hjm : j < m
    · rw [computeAt_attach_ne _ _ _ _ _ (by simp; omega)]
      exact ih j hjm st
    · have hje : j = m := by omega
      subst hje
      simp

theorem cacheAttachLoop_leaf (a : Axis) (n : Nat) (s : StageId) (st : SchedState) :
    ((cacheAttachLoop a n st).stages s).leaf = (st.stages s).leaf :=
  foldl_proj_invar (fun x => (x.stages s).leaf) _ (List.range n)
    (fun x i _ => by simp) st

theorem cacheAttachLoop_attach_other (a : Axis) (n : Nat) (s : StageId)
    (h : ∀ i : Nat, ¬ (s = StageId.cacheEwise i)) (st : SchedState) :
    ((cacheAttachLoop a n st).stages s).attach = (st.stages s).attach :=
  foldl_proj_invar (fun x => (x.stages s).attach) _ (List.range n)
    (fun x i _ => by simp [h i]) st

theorem cacheAttachLoop_splits (a : Axis) (n : Nat) (st : SchedState) :
    (cacheAttachLoop a n st).splits = st.splits :=
  foldl_proj_invar (fun x => x.splits) _ (List.range n)
    (fun x i _ => by simp [computeAt, addPragma]) st

theorem cacheAttachLoop_defines (a : Axis) (n : Nat) (st : SchedState) :
    (cacheAttachLoop a n st).defines = st.defines :=
  foldl_proj_invar (fun x => x.defines) _ (List.range n)
    (fun x i _ => by simp [computeAt, addPragma]) st

theorem cacheAttachLoop_attach_mem (a : Axis) :
    ∀ (n j : Nat), j < n → ∀ st : SchedState,
      ((cacheAttachLoop a n st).stages (.cacheEwise j)).attach =
        some (StageId.output, a) := by
  intro n
  induction n with
  | zero => intro j hj; omega
  | succ m ih =>
    intro j hj st
    unfold cacheAttachLoop
    rw [List.range_succ, List.foldl_append, List.foldl_cons, List.foldl_nil]
    by_cases hjm : j < m
    · rw [addPragma_attach, computeAt_attach_ne _ _ _ _ _ (by simp; omega)]
      exact ih j hjm st
    · have hje : j = m := by omega
      subst hje
      simp

/-! ### Phase lemmas for the conv2d schedule -/

theorem threadSplit_attach (st : SchedState) (a b : Axis) (n : Nat) (s : StageId) :
    ((threadSplit st a b n).stages s).attach = (st.stages s).attach := by
  simp [threadSplit]

theorem threadSplit_leaf_ne (st : SchedState) (a b : Axis) (n : Nat) (s : StageId)
    (h : ¬ (s = StageId.output)) :
    ((threadSplit st a b n).stages s).leaf = (st.stages s).leaf := by
  simp [threadSplit, h]

theorem threadSplit_defines (st : SchedState) (a b : Axis) (n : Nat) :
    (threadSplit st a b n).defines = st.defines := by
  simp [threadSplit, bindThread, reorderStage]

theorem iteThread_attach (c : Prop) [Decidable c] (st : SchedState) (a b : Axis)
    (n : Nat) (s : StageId) :
    ((if c then threadSplit st a b n else st).stages s).attach =
      (st.stages s).attach := by
  split
  · exact threadSplit_attach st a b n s
  · rfl

theorem iteThread_leaf_ne (c : Prop) [Decidable c] (st : SchedState) (a b : Axis)
    (n : Nat) (s : StageId) (h : ¬ (s = StageId.output)) :
    ((if c then threadSplit st a b n else st).stages s).leaf =
      (st.stages s).leaf := by
  split
  · exact threadSplit_leaf_ne st a b n s h
  · rfl

theorem iteThread_defines (c : Prop) [Decidable c] (st : SchedState) (a b : Axis)
    (n : Nat) : (if c then threadSplit st a b n else st).defines = st.defines := by
  split
  · exact threadSplit_defines st a b n
  · rfl

theorem convSchedPre_output_leaf (g : ConvGraphInfo) :
    ((convSchedPre g).stages .output).leaf =
      [outAx g 0, outAx g 1, outAx g 2, outAx g 3, outAx g 4, outAx g 5] := by
  unfold convSchedPre
  rw [constInlineLoop_leaf, ewiseScopeLoop_leaf,
    cacheEwiseLoop_leaf _ _ (fun i => by simp)]
  rw [setScope_leaf, cacheRead_leaf_ne _ _ _ _ _ (by simp)]
  cases hpd : g.hasPad <;>
    simp [hpd, setScope, cacheRead, updStage, convInit, convInitLeaf]

theorem convSchedPre_conv_leaf (g : ConvGraphInfo) :
    ((convSchedPre g).stages .conv).leaf =
      [convAx g 0, convAx g 1, convAx g 2, convAx g 3, convAx g 4, convAx g 5,
       redAx g 0, redAx g 1, redAx g 2, redAx g 3] := by
  unfold convSchedPre
  rw [constInlineLoop_leaf, ewiseScopeLoop_leaf,
    cacheEwiseLoop_leaf _ _ (fun i => by simp)]
  rw [setScope_leaf, cacheRead_leaf_ne _ _ _ _ _ (by simp)]
  cases hpd : g.hasPad <;>
    simp [hpd, setScope, cacheRead, updStage, convInit, convInitLeaf]

theorem convSchedPre_splits (g : ConvGraphInfo) :
    (convSchedPre g).splits = [] := by
  unfold convSchedPre
  rw [constInlineLoop_splits, ewiseScopeLoop_splits, cacheEwiseLoop_splits]
  rw [show ∀ st : SchedState, (setScope st .conv accScope).splits = st.splits
    from fun st => rfl]
  rw [cacheRead_splits]
  cases hpd : g.hasPad <;>
    simp [hpd, setScope, cacheRead, updStage, defineSplit, defineKnob, convInit]

theorem convSchedPre_defines (g : ConvGraphInfo) :
    (convSchedPre g).defines =
      [(("tile_b"), convAx g 0), (("tile_h"), convAx g 2),
       (("tile_w"), convAx g 3), (("tile_ci"), redAx g 0),
       (("tile_co"), convAx g 1)] := by
  unfold convSchedPre
  rw [constInlineLoop_defines, ewiseScopeLoop_defines, cacheEwiseLoop_defines]
  rw [show ∀ st : SchedState, (setScope st .conv accScope).defines = st.defines
    from fun st => rfl]
  rw [cacheRead_defines]
  cases hpd : g.hasPad <;>
    simp [hpd, setScope, cacheRead, updStage, defineSplit, defineKnob, convInit]

@[simp] theorem output_ne_cdataId (b : Bool) :
    ¬ (StageId.output = if b then StageId.padStage else StageId.cdataStage) := by
  cases b <;> simp

@[simp] theorem conv_ne_cdataId (b : Bool) :
    ¬ (StageId.conv = if b then StageId.padStage else StageId.cdataStage) := by
  cases b <;> simp

@[simp] theorem ckernel_ne_cdataId (b : Bool) :
    ¬ (StageId.ckernelStage = if b then StageId.padStage else StageId.cdataStage) := by
  cases b <;> simp

@[simp] theorem ewise_ne_cdataId (b : Bool) (i : Nat) :
    ¬ (StageId.ewise i = if b then StageId.padStage else StageId.cdataStage) := by
  cases b <;> simp

@[simp] theorem cacheEwise_ne_cdataId (b : Bool) (i : Nat) :
    ¬ (StageId.cacheEwise i = if b then StageId.padStage else StageId.cdataStage) := by
  cases b <;> simp

theorem schedule_conv2d_packed_sched_fields (cfg : Cfg) (g : ConvGraphInfo) :
    (schedule_conv2d_packed_sched cfg g).x_bo = outAx g 0 ∧
    (schedule_conv2d_packed_sched cfg g).x_bi = outAx g 4 ∧
    (schedule_conv2d_packed_sched cfg g).x_ci = outAx g 5 ∧
    (schedule_conv2d_packed_sched cfg g).x_co0 = tileOuter (outAx g 1) cfg.tile_co.2 ∧
    (schedule_conv2d_packed_sched cfg g).x_co1 = tileInner (outAx g 1) cfg.tile_co.2 ∧
    (schedule_conv2d_packed_sched cfg g).x_i0 = tileOuter (outAx g 2) cfg.tile_h.2 ∧
    (schedule_conv2d_packed_sched cfg g).x_i1 = tileInner (outAx g 2) cfg.tile_h.2 ∧
    (schedule_conv2d_packed_sched cfg g).x_j0 = tileOuter (outAx g 3) cfg.tile_w.2 ∧
    (schedule_conv2d_packed_sched cfg g).x_j1 = tileInner (outAx g 3) cfg.tile_w.2 ∧
    (schedule_conv2d_packed_sched cfg g).store_pt =
      tileOuter (outAx g 3) cfg.tile_w.2 ∧
    (schedule_conv2d_packed_sched cfg g).k_o_outer =
      tileOuter (redAx g 0) cfg.tile_ci.2 ∧
    (schedule_conv2d_packed_sched cfg g).k_o_inner =
      tileInner (redAx g 0) cfg.tile_ci.2 ∧
    (schedule_conv2d_packed_sched cfg g).cdataId =
      (if g.hasPad then StageId.padStage else StageId.cdataStage) := by
  refine ⟨rfl, rfl, rfl, rfl, rfl, rfl, rfl, rfl, rfl, rfl, rfl, rfl, rfl⟩

theorem schedule_conv2d_packed_sched_splits (cfg : Cfg) (g : ConvGraphInfo)
    (h1 : cfg.oc_nthread = 1) (h2 : cfg.h_nthread = 1) :
    (schedule_conv2d_packed_sched cfg g).st.splits =
      [(StageId.output, outAx g 1, tileOuter (outAx g 1) cfg.tile_co.2,
        tileInner (outAx g 1) cfg.tile_co.2),
       (StageId.output, outAx g 2, tileOuter (outAx g 2) cfg.tile_h.2,
        tileInner (outAx g 2) cfg.tile_h.2),
       (StageId.output, outAx g 3, tileOuter (outAx g 3) cfg.tile_w.2,
        tileInner (outAx g 3) cfg.tile_w.2),
       (StageId.conv, redAx g 0, tileOuter (redAx g 0) cfg.tile_ci.2,
        tileInner (redAx g 0) cfg.tile_ci.2)] := by
  unfold schedule_conv2d_packed_sched
  simp only [h1, h2, lt_self_iff_false, if_false]
  simp [addPragma, tensorizeAt, computeAt, reorderStage,
    cacheAttachLoop_splits, ewiseAttachLoop_splits, convSchedPre_splits]

theorem schedule_conv2d_packed_sched_output_leaf (cfg : Cfg) (g : ConvGraphInfo)
    (h1 : cfg.oc_nthread = 1) (h2 : cfg.h_nthread = 1) :
    ((schedule_conv2d_packed_sched cfg g).st.stages .output).leaf =
      [outAx g 0, tileOuter (outAx g 2) cfg.tile_h.2,
       tileOuter (outAx g 1) cfg.tile_co.2, tileOuter (outAx g 3) cfg.tile_w.2,
       tileInner (outAx g 1) cfg.tile_co.2, tileInner (outAx g 2) cfg.tile_h.2,
       tileInner (outAx g 3) cfg.tile_w.2, outAx g 4, outAx g 5] := by
  unfold schedule_conv2d_packed_sched
  simp only [h1, h2, lt_self_iff_false, if_false]
  rw [addPragma_leaf, tensorizeAt_leaf, addPragma_leaf, addPragma_leaf,
    computeAt_leaf, computeAt_leaf,
    splitAxis_leaf_ne _ _ _ _ _ (by simp),
    reorderStage_leaf_ne _ _ _ _ (by simp),
    cacheAttachLoop_leaf, ewiseAttachLoop_leaf, computeAt_leaf,
    reorderStage_leaf_same, splitAxis_leaf_same, splitAxis_leaf_same,
    splitAxis_leaf_same, convSchedPre_output_leaf]
  simp [reorderFill, axElem, tileOuter, tileInner, outAx, ceilDiv]

theorem schedule_conv2d_packed_sched_conv_attach (cfg : Cfg) (g : ConvGraphInfo) :
    ((schedule_conv2d_packed_sched cfg g).st.stages .conv).attach =
      some (StageId.output, tileOuter (outAx g 3) cfg.tile_w.2) := by
  unfold schedule_conv2d_packed_sched
  simp only [splitAxis_snd_fst, splitAxis_snd_snd]
  rw [addPragma_attach, tensorizeAt_attach, addPragma_attach, addPragma_attach,
    computeAt_attach_ne _ _ _ _ _ (by simp),
    computeAt_attach_ne _ _ _ _ _ (by simp),
    splitAxis_attach, reorderStage_attach, iteThread_attach, iteThread_attach,
    cacheAttachLoop_attach_other _ _ _ (fun i => by simp),
    ewiseAttachLoop_attach_other _ _ _ (fun i => by simp),
    computeAt_attach_same]

theorem schedule_conv2d_packed_sched_ewise_attach (cfg : Cfg) (g : ConvGraphInfo)
    (i : Nat) (hi : i < g.nEwise) :
    ((schedule_conv2d_packed_sched cfg g).st.stages (.ewise i)).attach =
      some (StageId.output, tileOuter (outAx g 3) cfg.tile_w.2) := by
  unfold schedule_conv2d_packed_sched
  simp only [splitAxis_snd_fst, splitAxis_snd_snd]
  rw [addPragma_attach, tensorizeAt_attach, addPragma_attach, addPragma_attach,
    computeAt_attach_ne _ _ _ _ _ (by simp),
    computeAt_attach_ne _ _ _ _ _ (by simp),
    splitAxis_attach, reorderStage_attach, iteThread_attach, iteThread_attach,
    cacheAttachLoop_attach_other _ _ _ (fun j => by simp)]
  exact ewiseAttachLoop_attach_mem _ _ i hi _

theorem schedule_conv2d_packed_sched_cache_attach (cfg : Cfg) (g : ConvGraphInfo)
    (i : Nat) (hi : i < g.nEwiseIn) :
    ((schedule_conv2d_packed_sched cfg g).st.stages (.cacheEwise i)).attach =
      some (StageId.output, tileOuter (outAx g 3) cfg.tile_w.2) := by
  unfold schedule_conv2d_packed_sched
  simp only [splitAxis_snd_fst, splitAxis_snd_snd]
  rw [addPragma_attach, tensorizeAt_attach, addPragma_attach, addPragma_attach,
    computeAt_attach_ne _ _ _ _ _ (by simp),
    computeAt_attach_ne _ _ _ _ _ (by simp),
    splitAxis_attach, reorderStage_attach, iteThread_attach, iteThread_attach]
  exact cacheAttachLoop_attach_mem _ _ i hi _

theorem schedule_conv2d_packed_sched_conv_leaf (cfg : Cfg) (g : ConvGraphInfo) :
    ((schedule_conv2d_packed_sched cfg g).st.stages .conv).leaf =
      [convAx g 0, tileOuter (redAx g 0) cfg.tile_ci.2,
       tileInner (redAx g 0) cfg.tile_ci.2, convAx g 3, redAx g 2, redAx g 1,
       convAx g 1, convAx g 2, convAx g 4, convAx g 5, redAx g 3] := by
  unfold schedule_conv2d_packed_sched
  rw [addPragma_leaf, tensorizeAt_leaf, addPragma_leaf, addPragma_leaf,
    computeAt_leaf, computeAt_leaf, splitAxis_leaf_same, reorderStage_leaf_same,
    iteThread_leaf_ne _ _ _ _ _ _ (by simp), iteThread_leaf_ne _ _ _ _ _ _ (by simp),
    cacheAttachLoop_leaf, ewiseAttachLoop_leaf, computeAt_leaf,
    reorderStage_leaf_ne _ _ _ _ (by simp),
    splitAxis_leaf_ne _ _ _ _ _ (by simp), splitAxis_leaf_ne _ _ _ _ _ (by simp),
    splitAxis_leaf_ne _ _ _ _ _ (by simp), convSchedPre_conv_leaf]
  simp [reorderFill, axElem, convAx, redAx, tileOuter, tileInner, ceilDiv]

theorem schedule_conv2d_packed_sched_ckernel_attach (cfg : Cfg) (g : ConvGraphInfo) :
    ((schedule_conv2d_packed_sched cfg g).st.stages .ckernelStage).attach =
      some (StageId.conv, tileOuter (redAx g 0) cfg.tile_ci.2) := by
  unfold schedule_conv2d_packed_sched
  simp only [splitAxis_snd_fst, splitAxis_snd_snd]
  rw [addPragma_attach, tensorizeAt_attach, addPragma_attach, addPragma_attach,
    computeAt_attach_same]

theorem schedule_conv2d_packed_sched_cdata_attach (cfg : Cfg) (g : ConvGraphInfo) :
    ((schedule_conv2d_packed_sched cfg g).st.stages
      (if g.hasPad then StageId.padStage else StageId.cdataStage)).attach =
      some (StageId.conv, tileOuter (redAx g 0) cfg.tile_ci.2) := by
  cases hpd : g.hasPad
  all_goals
    unfold schedule_conv2d_packed_sched
    simp only [hpd, Bool.false_eq_true, if_true, if_false]
    simp only [splitAxis_snd_fst, splitAxis_snd_snd]
    rw [addPragma_attach, tensorizeAt_attach, addPragma_attach, addPragma_attach,
      computeAt_attach_ne _ _ _ _ _ (by simp), computeAt_attach_same]

theorem schedule_conv2d_packed_sched_defines (cfg : Cfg) (g : ConvGraphInfo) :
    (schedule_conv2d_packed_sched cfg g).st.defines =
      [(("tile_b"), convAx g 0), (("tile_h"), convAx g 2),
       (("tile_w"), convAx g 3), (("tile_ci"), redAx g 0),
       (("tile_co"), convAx g 1)] := by
  unfold schedule_conv2d_packed_sched
  simp [addPragma, tensorizeAt, computeAt, reorderStage, iteThread_defines,
    cacheAttachLoop_defines, ewiseAttachLoop_defines, convSchedPre_defines]

theorem schedule_conv2d_packed_sched_tile_ci_split (cfg : Cfg) (g : ConvGraphInfo) :
    (StageId.conv, redAx g 0, tileOuter (redAx g 0) cfg.tile_ci.2,
     tileInner (redAx g 0) cfg.tile_ci.2) ∈
      (schedule_conv2d_packed_sched cfg g).st.splits := by
  unfold schedule_conv2d_packed_sched
  simp [addPragma, tensorizeAt, computeAt]

/-- C6: after tiling, the final output stage's axes are reordered into
`x_bo, x_i0, x_co0, x_j0, x_co1, x_i1, x_j1, x_bi, x_ci` — batch, outer
height, outer channel, outer width, inner channel, inner height, inner
width, inner batch block, inner channel block, where the outer/inner pairs
come from the recorded `tile_co`/`tile_h`/`tile_w` splits of the original
channel/height/width axes — and the convolution stage, every elementwise
stage and every cached elementwise-input copy is attached at the outer-width
axis `x_j0` of the output stage (the claim describes the untiled threading
configuration, knob values 1). -/
theorem schedule_conv2d_packed_output_reorder_and_attach (cfg : Cfg)
    (g : ConvGraphInfo) (h1 : cfg.oc_nthread = 1) (h2 : cfg.h_nthread = 1) :
    ((schedule_conv2d_packed_sched cfg g).st.stages .output).leaf =
      [outAx g 0, tileOuter (outAx g 2) cfg.tile_h.2,
       tileOuter (outAx g 1) cfg.tile_co.2, tileOuter (outAx g 3) cfg.tile_w.2,
       tileInner (outAx g 1) cfg.tile_co.2, tileInner (outAx g 2) cfg.tile_h.2,
       tileInner (outAx g 3) cfg.tile_w.2, outAx g 4, outAx g 5] ∧
    (StageId.output, outAx g 1, tileOuter (outAx g 1) cfg.tile_co.2,
      tileInner (outAx g 1) cfg.tile_co.2) ∈
      (schedule_conv2d_packed_sched cfg g).st.splits ∧
    (StageId.output, outAx g 2, tileOuter (outAx g 2) cfg.tile_h.2,
      tileInner (outAx g 2) cfg.tile_h.2) ∈
      (schedule_conv2d_packed_sched cfg g).st.splits ∧
    (StageId.output, outAx g 3, tileOuter (outAx g 3) cfg.tile_w.2,
      tileInner (outAx g 3) cfg.tile_w.2) ∈
      (schedule_conv2d_packed_sched cfg g).st.splits ∧
    (schedule_conv2d_packed_sched cfg g).store_pt =
      tileOuter (outAx g 3) cfg.tile_w.2 ∧
    (schedule_conv2d_packed_sched cfg g).x_j0 =
      tileOuter (outAx g 3) cfg.tile_w.2 ∧
    ((schedule_conv2d_packed_sched cfg g).st.stages .conv).attach =
      some (StageId.output, tileOuter (outAx g 3) cfg.tile_w.2) ∧
    (∀ i, i < g.nEwise →
      ((schedule_conv2d_packed_sched cfg g).st.stages (.ewise i)).attach =
        some (StageId.output, tileOuter (outAx g 3) cfg.tile_w.2)) ∧
    (∀ i, i < g.nEwiseIn →
      ((schedule_conv2d_packed_sched cfg g).st.stages (.cacheEwise i)).attach =
        some (StageId.output, tileOuter (outAx g 3) cfg.tile_w.2)) := by
  refine ⟨schedule_conv2d_packed_sched_output_leaf cfg g h1 h2, ?_, ?_, ?_,
    rfl, rfl, schedule_conv2d_packed_sched_conv_attach cfg g,
    fun i hi => schedule_conv2d_packed_sched_ewise_attach cfg g i hi,
    fun i hi => schedule_conv2d_packed_sched_cache_attach cfg g i hi⟩
  · rw [schedule_conv2d_packed_sched_splits cfg g h1 h2]; simp
  · rw [schedule_conv2d_packed_sched_splits cfg g h1 h2]; simp
  · rw [schedule_conv2d_packed_sched_splits cfg g h1 h2]; simp

/-- Example classified-graph summary: activation `[1,4,16,16,1,16]`, kernel
`[4,4,3,3,16,16]`, output `[1,4,16,16,1,16]`, padded activation
`[1,4,18,18,1,16]`, one elementwise op with one placeholder input, no
constant ops. -/
def gEx : ConvGraphInfo :=
  ⟨[1, 4, 16, 16, 1, 16], [4, 4, 3, 3, 16, 16], [1, 4, 16, 16, 1, 16],
   [1, 4, 18, 18, 1, 16], true, 1, 1, 0⟩

/-- Example resolved configuration with both threading knobs disabled. -/
def cfgEx : Cfg := ⟨(1, 1), (2, 8), (2, 8), (2, 2), (2, 2), 1, 1⟩

/-- Witness for C6 at the example configuration and graph. -/
theorem schedule_conv2d_packed_output_reorder_and_attach_witness :
    cfgEx.oc_nthread = 1 ∧ cfgEx.h_nthread = 1 ∧
    ((schedule_conv2d_packed_sched cfgEx gEx).st.stages .output).leaf =
      [outAx gEx 0, tileOuter (outAx gEx 2) cfgEx.tile_h.2,
       tileOuter (outAx gEx 1) cfgEx.tile_co.2,
       tileOuter (outAx gEx 3) cfgEx.tile_w.2,
       tileInner (outAx gEx 1) cfgEx.tile_co.2,
       tileInner (outAx gEx 2) cfgEx.tile_h.2,
       tileInner (outAx gEx 3) cfgEx.tile_w.2, outAx gEx 4, outAx gEx 5] ∧
    ((schedule_conv2d_packed_sched cfgEx gEx).st.stages .conv).attach =
      some (StageId.output, tileOuter (outAx gEx 3) cfgEx.tile_w.2) ∧
    ((schedule_conv2d_packed_sched cfgEx gEx).st.stages (.ewise 0)).attach =
      some (StageId.output, tileOuter (outAx gEx 3) cfgEx.tile_w.2) ∧
    ((schedule_conv2d_packed_sched cfgEx gEx).st.stages (.cacheEwise 0)).attach =
      some (StageId.output, tileOuter (outAx gEx 3) cfgEx.tile_w.2) := by
  have h := schedule_conv2d_packed_output_reorder_and_attach cfgEx gEx rfl rfl
  exact ⟨rfl, rfl, h.1, h.2.2.2.2.2.2.1,
    h.2.2.2.2.2.2.2.1 0 (by decide), h.2.2.2.2.2.2.2.2 0 (by decide)⟩

/-- C7 counterexample: at the example graph, the `tile_ci` tunable is
declared by the configuration space on the first reduction axis of the conv
stage — the input-outer-channel reduction axis `k_o` (extent `ishape[1] = 4`)
— and *not* on the input-inner-channel reduction axis `k_i`
(extent `ishape[5] = 16`), refuting the claim's parenthetical that the space
is declared for the input-inner-channel-reduction axis. -/
theorem schedule_conv2d_tile_ci_declared_counterexample :
    (("tile_ci"), redAx gEx 0) ∈
      (schedule_conv2d_packed_sched cfgEx gEx).st.defines ∧
    (redAx gEx 0).extent = 4 ∧
    (redAx gEx 3).extent = 16 ∧
    ¬ (redAx gEx 0 = redAx gEx 3) ∧
    ¬ ((("tile_ci"), redAx gEx 3) ∈
      (schedule_conv2d_packed_sched cfgEx gEx).st.defines) := by
  rw [schedule_conv2d_packed_sched_defines cfgEx gEx]
  refine ⟨by decide, by decide, by decide, by decide, by decide⟩

/-- C7 amended: within the convolution stage the loops are reordered so
that the input-outer-channel reduction axis `k_o` is outermost among the
reduction axes and the input-inner-channel reduction axis `k_i` is
innermost; the 2-way reduction split `tile_ci` — declared by the
configuration space on the *input-outer-channel* reduction axis (the first
reduction axis, bound to the variable `c_i` on line 104) — is applied to
`k_o`, and the cached activation and weight buffers are attached at the
resulting outer split axis, so a fresh tile is fetched once per
input-outer-channel tile. -/
theorem schedule_conv2d_packed_reduction_staging (cfg : Cfg) (g : ConvGraphInfo) :
    (("tile_ci"), redAx g 0) ∈ (schedule_conv2d_packed_sched cfg g).st.defines ∧
    (schedule_conv2d_packed_sched cfg g).k_o_outer =
      tileOuter (redAx g 0) cfg.tile_ci.2 ∧
    (schedule_conv2d_packed_sched cfg g).k_o_inner =
      tileInner (redAx g 0) cfg.tile_ci.2 ∧
    ((schedule_conv2d_packed_sched cfg g).st.stages .conv).leaf =
      [convAx g 0, tileOuter (redAx g 0) cfg.tile_ci.2,
       tileInner (redAx g 0) cfg.tile_ci.2, convAx g 3, redAx g 2, redAx g 1,
       convAx g 1, convAx g 2, convAx g 4, convAx g 5, redAx g 3] ∧
    (StageId.conv, redAx g 0, tileOuter (redAx g 0) cfg.tile_ci.2,
      tileInner (redAx g 0) cfg.tile_ci.2) ∈
      (schedule_conv2d_packed_sched cfg g).st.splits ∧
    (schedule_conv2d_packed_sched cfg g).cdataId =
      (if g.hasPad then StageId.padStage else StageId.cdataStage) ∧
    ((schedule_conv2d_packed_sched cfg g).st.stages
        (if g.hasPad then StageId.padStage else StageId.cdataStage)).attach =
      some (StageId.conv, tileOuter (redAx g 0) cfg.tile_ci.2) ∧
    ((schedule_conv2d_packed_sched cfg g).st.stages .ckernelStage).attach =
      some (StageId.conv, tileOuter (redAx g 0) cfg.tile_ci.2) := by
  refine ⟨?_, rfl, rfl, schedule_conv2d_packed_sched_conv_leaf cfg g,
    schedule_conv2d_packed_sched_tile_ci_split cfg g, rfl,
    schedule_conv2d_packed_sched_cdata_attach cfg g,
    schedule_conv2d_packed_sched_ckernel_attach cfg g⟩
  rw [schedule_conv2d_packed_sched_defines cfg g]
  simp

/-! ## The fused elementwise/add schedule (`_schedule_add`, lines 193-291) -/

/-- The divisor enumeration of `_schedule_add` (lines 248-250): Python
`sorted(set(reduce(list.__add__, ([i, n//i] for i in range(1, int(n**0.5)+1)
if n % i == 0))))`, rendered with `Nat.sqrt` for `int(n**0.5)` and
insertion sort plus dedup for `sorted(set(...))`. -/
def factorsList (n : Nat) : List Nat :=
  ((((List.range' 1 (Nat.sqrt n)).filter (fun i => n % i == 0)).flatMap
    (fun i => [i, n / i])).insertionSort (· ≤ ·)).dedup

/-- The factor-selection loop of `_schedule_add` (lines 253-263):
`f = l[-1]; while f > cap: del l[-1]; f = l[-1]` — i.e. the last element
after dropping, from the end, every element exceeding the cap (`none` when
the list runs out, where Python raises IndexError). -/
def lastNotExceeding (cap : Nat) (l : List Nat) : Option Nat :=
  match l.reverse.dropWhile (fun x => decide (cap < x)) with
  | [] => none
  | x :: _ => some x

theorem mem_range'_one (s n m : Nat) : m ∈ List.range' s n ↔ s ≤ m ∧ m < s + n := by
  rw [List.mem_range']
  constructor
  · rintro ⟨i, hi, rfl⟩
    omega
  · intro h
    exact ⟨m - s, by omega, by omega⟩

theorem factorsList_mem (n : Nat) (hn : 0 < n) (x : Nat) :
    x ∈ factorsList n ↔ x ∣ n := by
  unfold factorsList
  rw [List.mem_dedup, (List.perm_insertionSort _ _).mem_iff, List.mem_flatMap]
  constructor
  · rintro ⟨i, hi, hx⟩
    rw [List.mem_filter] at hi
    have hdvd : i ∣ n := Nat.dvd_of_mod_eq_zero (by
      have := hi.2
      simpa using this)
    simp only [List.mem_cons, List.not_mem_nil, or_false] at hx
    rcases hx with rfl | rfl
    · exact hdvd
    · exact Nat.div_dvd_of_dvd hdvd
  · intro hdvd
    have hx0 : 0 < x := by
      rcases Nat.eq_zero_or_pos x with rfl | h
      · exact absurd (Nat.eq_zero_of_zero_dvd hdvd) (by omega)
      · exact h
    by_cases hle : x ≤ Nat.sqrt n
    · refine ⟨x, ?_, by simp⟩
      rw [List.mem_filter]
      constructor
      · rw [mem_range'_one]
        omega
      · simp [Nat.mod_eq_zero_of_dvd hdvd]
    · refine ⟨n / x, ?_, ?_⟩
      · rw [List.mem_filter]
        have hxn : x ≤ n := Nat.le_of_dvd hn hdvd
        have h1 : 1 ≤ n / x := (Nat.one_le_div_iff hx0).mpr hxn
        have h2 : n / x ≤ Nat.sqrt n := by
          have hlt : n < (Nat.sqrt n + 1) * x := by
            calc n < (Nat.sqrt n).succ * (Nat.sqrt n).succ := Nat.lt_succ_sqrt n
            _ ≤ (Nat.sqrt n + 1) * x :=
              Nat.mul_le_mul_left _ (by omega)
          have := (Nat.div_lt_iff_lt_mul hx0).mpr (by
            rw [Nat.mul_comm] at hlt
            exact lt_of_lt_of_le hlt (le_of_eq (Nat.mul_comm _ _)))
          omega
        constructor
        · rw [mem_range'_one]
          omega
        · simp [Nat.mod_eq_zero_of_dvd (Nat.div_dvd_of_dvd hdvd)]
      · have := Nat.div_div_self hdvd (by omega)
        simp [this]

theorem factorsList_sorted (n : Nat) :
    List.Pairwise (fun a b => a ≤ b) (factorsList n) := by
  unfold factorsList
  exact List.Pairwise.sublist (List.dedup_sublist _)
    (List.sorted_insertionSort _ _)

theorem dropWhile_nil_all (p : Nat → Bool) :
    ∀ (r : List Nat), r.dropWhile p = [] → ∀ z ∈ r, p z = true := by
  intro r
  induction r with
  | nil =>
    intro _ z hz
    cases hz
  | cons a t ih =>
    intro h z hz
    rw [List.dropWhile_cons] at h
    by_cases hpa : p a = true
    · rw [if_pos hpa] at h
      rcases List.mem_cons.mp hz with rfl | hzt
      · exact hpa
      · exact ih h z hzt
    · rw [if_neg hpa] at h
      cases h

theorem dropWhile_last_le (cap : Nat) :
    ∀ (r : List Nat), List.Pairwise (fun a b => b ≤ a) r →
    ∀ x xs, r.dropWhile (fun z => decide (cap < z)) = x :: xs →
      x ∈ r ∧ x ≤ cap ∧ ∀ y ∈ r, y ≤ cap → y ≤ x := by
  intro r
  induction r with
  | nil =>
    intro _ x xs h
    cases h
  | cons a t ih =>
    intro hp x xs h
    rw [List.dropWhile_cons] at h
    by_cases hca : cap < a
    · rw [if_pos (by simp [hca])] at h
      obtain ⟨hx1, hx2, hx3⟩ := ih (List.pairwise_cons.mp hp).2 x xs h
      refine ⟨List.mem_cons_of_mem _ hx1, hx2, ?_⟩
      intro y hy hyc
      rcases List.mem_cons.mp hy with rfl | hyt
      · omega
      · exact hx3 y hyt hyc
    · rw [if_neg (by simp [hca])] at h
      cases h
      refine ⟨List.mem_cons_self _ _, by omega, ?_⟩
      intro y hy hyc
      rcases List.mem_cons.mp hy with rfl | hyt
      · exact le_rfl
      · exact (List.pairwise_cons.mp hp).1 y hyt

/-- The while-loop of `_schedule_add` selects exactly the greatest divisor
of `n` not exceeding the cap. -/
theorem lastNotExceeding_factors (n cap : Nat) (hn : 0 < n) (hcap : 1 ≤ cap) :
    lastNotExceeding cap (factorsList n) =
      some (Nat.findGreatest (fun d => d ∣ n) cap) := by
  have h1 : (1 : Nat) ∈ factorsList n := (factorsList_mem n hn 1).mpr (one_dvd n)
  unfold lastNotExceeding
  cases hdw : (factorsList n).reverse.dropWhile (fun z => decide (cap < z)) with
  | nil =>
    exfalso
    have hall := dropWhile_nil_all _ _ hdw 1 (List.mem_reverse.mpr h1)
    simp at hall
    omega
  | cons x xs =>
    have hrev : List.Pairwise (fun a b => b ≤ a) (factorsList n).reverse :=
      List.pairwise_reverse.mpr (factorsList_sorted n)
    obtain ⟨hx1, hx2, hx3⟩ := dropWhile_last_le cap _ hrev x xs hdw
    have hxdvd : x ∣ n := (factorsList_mem n hn x).mp (List.mem_reverse.mp hx1)
    have hge : Nat.findGreatest (fun d => d ∣ n) cap = x := by
      apply Nat.le_antisymm
      · have hfle : Nat.findGreatest (fun d => d ∣ n) cap ≤ cap :=
          Nat.findGreatest_le cap
        have hfdvd : Nat.findGreatest (fun d => d ∣ n) cap ∣ n :=
          @Nat.findGreatest_spec 1 (fun d => d ∣ n) _ cap hcap (one_dvd n)
        exact hx3 _ (List.mem_reverse.mpr ((factorsList_mem n hn _).mpr hfdvd))
          hfle
      · exact Nat.le_findGreatest hx2 hxdvd
    rw [hge]

/-- Summary of a fused-add graph for `_schedule_add`: the output dtype, the
six output axis extents (constant, per `get_const_int`), and the numbers of
elementwise ops, cached elementwise inputs and constant ops found by its
classifier variant. -/
structure AddGraphInfo where
  outDtype : String
  extents : List Nat
  nEwise : Nat
  nEwiseIn : Nat
  nConst : Nat

/-- Axes of the fused-add output stage. -/
def addAx (ga : AddGraphInfo) (i : Nat) : Axis :=
  ⟨.base i, Int.ofNat (ga.extents.getD i 0)⟩

/-- Axes of the `j`-th elementwise stage of the fused-add graph. -/
def addEwiseAx (ga : AddGraphInfo) (j i : Nat) : Axis :=
  ⟨.base (6 + 6 * j + i), Int.ofNat (ga.extents.getD i 0)⟩

/-- Initial leaf order of the fused-add schedule's stages. -/
def addInitLeaf (ga : AddGraphInfo) : StageId → List Axis
  | .output => [addAx ga 0, addAx ga 1, addAx ga 2, addAx ga 3, addAx ga 4,
                addAx ga 5]
  | .ewise j => if j < ga.nEwise then
      [addEwiseAx ga j 0, addEwiseAx ga j 1, addEwiseAx ga j 2,
       addEwiseAx ga j 3, addEwiseAx ga j 4, addEwiseAx ga j 5] else []
  | _ => []

/-- Schedule state after `te.create_schedule([x.op for x in outs])`
(line 205). -/
def addInit (ga : AddGraphInfo) : SchedState :=
  { stages := fun sid => { leaf := addInitLeaf ga sid } }

/-- Per-elementwise scope, ALU pragma and attach of `_schedule_add`
(lines 271-274). -/
def addEwiseLoop (a : Axis) (n : Nat) (st : SchedState) : SchedState :=
  (List.range n).foldl
    (fun s i => computeAt (addPragma (setScope s (.ewise i) accScope)
      (.ewise i) (stageAxis0 s (.ewise i)) aluTag) (.ewise i) .output a) st

/-- Cached-input DMA pragma then attach of `_schedule_add` (lines 282-284);
the cache reads themselves (lines 277-280) are the same `s.cache_read`
loop as in the conv schedule (`cacheEwiseLoop`). -/
def addCacheAttachLoop (a : Axis) (n : Nat) (st : SchedState) : SchedState :=
  (List.range n).foldl
    (fun s i => computeAt (addPragma s (.cacheEwise i)
      (stageAxis0 s (.cacheEwise i)) dmaCopy) (.cacheEwise i) .output a) st

/-- Result of the fused-add schedule model: the final state and the selected
height/width tile factors (`none` when Python would raise before selecting,
or when the non-integral path skips selection entirely). -/
structure AddSchedResult where
  st : SchedState
  i_factor : Option Nat
  j_factor : Option Nat

/-- Shallow embedding of `_schedule_add` (lines 195-291): generic injective
inlining always runs; only when the output dtype contains "int" does the
accelerator staging happen — the `split(x_co, factor=1)` of the channel
axis, the divisor-heuristic selection of the height/width tile factors
(caps 28 and 14), the output reorder and `store_pt = x_j0`, per-elementwise
scope/ALU-pragma/attach, cache reads of elementwise inputs with DMA pragma
and attach, constant inlining, and the output DMA pragma on `x_co1`.
(Line 240 reads `x_co_max` from `x_bo.dom.extent`; that value is unused.) -/
def schedule_add (ga : AddGraphInfo) : AddSchedResult :=
  let st := addInit ga
  let st := { st with autoInlined := true }
  if strContains ga.outDtype ("int") then
    let x_bo := addAx ga 0
    let x_bi := addAx ga 4
    let x_ci := addAx ga 5
    let x_i_max := ga.extents.getD 2 0
    let x_j_max := ga.extents.getD 3 0
    let p0 := splitAxis st .output (addAx ga 1) 1
    let st := p0.1
    let x_co0 := p0.2.1
    let x_co1 := p0.2.2
    match lastNotExceeding 28 (factorsList x_i_max),
        lastNotExceeding 14 (factorsList x_j_max) with
    | some i_factor, some j_factor =>
      let p1 := splitAxis st .output (addAx ga 2) (Int.ofNat i_factor)
      let st := p1.1
      let x_i0 := p1.2.1
      let x_i1 := p1.2.2
      let p2 := splitAxis st .output (addAx ga 3) (Int.ofNat j_factor)
      let st := p2.1
      let x_j0 := p2.2.1
      let x_j1 := p2.2.2
      let st := reorderStage st .output
        [x_bo, x_i0, x_co0, x_j0, x_co1, x_i1, x_j1, x_bi, x_ci]
      let store_pt := x_j0
      let st := addEwiseLoop store_pt ga.nEwise st
      let st := cacheEwiseLoop ga.nEwiseIn st
      let st := addCacheAttachLoop store_pt ga.nEwiseIn st
      let st := constInlineLoop ga.nConst st
      let st := addPragma st .output x_co1 dmaCopy
      ⟨st, some i_factor, some j_factor⟩
    | _, _ => ⟨st, none, none⟩
  else ⟨st, none, none⟩

/-- C9: when the output dtype of the fused add is not integral,
`_schedule_add` applies only the generic injective inlining and returns
immediately: no split is performed, no cache-read stage is created, no tile
factor is selected, and every stage keeps its initial state — no memory
scope, no pragma, no attach point, no inlining, no tensorize, the original
leaf order. -/
theorem schedule_add_non_integral (ga : AddGraphInfo)
    (h : strContains ga.outDtype ("int") = false) :
    (schedule_add ga).st.autoInlined = true ∧
    (schedule_add ga).st.splits = [] ∧
    (schedule_add ga).st.cacheReads = [] ∧
    (schedule_add ga).i_factor = none ∧
    (schedule_add ga).j_factor = none ∧
    (∀ sid, ((schedule_add ga).st.stages sid).scope = none ∧
      ((schedule_add ga).st.stages sid).pragmas = [] ∧
      ((schedule_add ga).st.stages sid).attach = none ∧
      ((schedule_add ga).st.stages sid).inlined = false ∧
      ((schedule_add ga).st.stages sid).tensorized = none ∧
      ((schedule_add ga).st.stages sid).leaf = addInitLeaf ga sid) := by
  unfold schedule_add
  simp [h, addInit]

/-- Witness for C9 at a float-typed fused add. -/
theorem schedule_add_non_integral_witness :
    strContains ("float32") ("int") = false ∧
    (schedule_add ⟨"float32", [1, 16, 56, 56, 1, 16], 1, 1, 0⟩).st.splits = [] ∧
    (schedule_add ⟨"float32", [1, 16, 56, 56, 1, 16], 1, 1, 0⟩).i_factor = none ∧
    ((schedule_add ⟨"float32", [1, 16, 56, 56, 1, 16], 1, 1, 0⟩).st.stages
      .output).pragmas = [] ∧
    ((schedule_add ⟨"float32", [1, 16, 56, 56, 1, 16], 1, 1, 0⟩).st.stages
      (.ewise 0)).attach = none ∧
    (schedule_add ⟨"float32", [1, 16, 56, 56, 1, 16], 1, 1, 0⟩).st.autoInlined =
      true := by
  have h := schedule_add_non_integral ⟨"float32", [1, 16, 56, 56, 1, 16], 1, 1, 0⟩
    (by decide)
  exact ⟨by decide, h.2.1, h.2.2.2.1, (h.2.2.2.2.2 .output).2.1,
    (h.2.2.2.2.2 (.ewise 0)).2.2.1, h.1⟩

@[simp] theorem setScope_splits (st : SchedState) (sid : StageId) (sc : String) :
    (setScope st sid sc).splits = st.splits := rfl

@[simp] theorem addPragma_splits (st : SchedState) (sid : StageId) (a : Axis)
    (p : String) : (addPragma st sid a p).splits = st.splits := rfl

@[simp] theorem computeAt_splits (st : SchedState) (sid osid : StageId)
    (a : Axis) : (computeAt st sid osid a).splits = st.splits := rfl

@[simp] theorem computeInline_splits (st : SchedState) (sid : StageId) :
    (computeInline st sid).splits = st.splits := rfl

@[simp] theorem tensorizeAt_splits (st : SchedState) (sid : StageId) (a : Axis)
    (intrin : String) : (tensorizeAt st sid a intrin).splits = st.splits := rfl

@[simp] theorem bindThread_splits (st : SchedState) (sid : StageId) (a : Axis)
    (tname : String) : (bindThread st sid a tname).splits = st.splits := rfl

@[simp] theorem reorderStage_splits (st : SchedState) (sid : StageId)
    (ord : List Axis) : (reorderStage st sid ord).splits = st.splits := rfl

theorem addEwiseLoop_splits (a : Axis) (n : Nat) (st : SchedState) :
    (addEwiseLoop a n st).splits = st.splits :=
  foldl_proj_invar (fun x => x.splits) _ (List.range n)
    (fun x i _ => by simp) st

theorem addCacheAttachLoop_splits (a : Axis) (n : Nat) (st : SchedState) :
    (addCacheAttachLoop a n st).splits = st.splits :=
  foldl_proj_invar (fun x => x.splits) _ (List.range n)
    (fun x i _ => by simp) st

theorem schedule_add_splits_of (ga : AddGraphInfo) (fi fj : Nat)
    (hdt : strContains ga.outDtype ("int") = true)
    (hfi : lastNotExceeding 28 (factorsList (ga.extents.getD 2 0)) = some fi)
    (hfj : lastNotExceeding 14 (factorsList (ga.extents.getD 3 0)) = some fj) :
    (schedule_add ga).st.splits =
      [(StageId.output, addAx ga 1, tileOuter (addAx ga 1) 1,
        tileInner (addAx ga 1) 1),
       (StageId.output, addAx ga 2, tileOuter (addAx ga 2) (Int.ofNat fi),
        tileInner (addAx ga 2) (Int.ofNat fi)),
       (StageId.output, addAx ga 3, tileOuter (addAx ga 3) (Int.ofNat fj),
        tileInner (addAx ga 3) (Int.ofNat fj))] ∧
    (schedule_add ga).i_factor = some fi ∧
    (schedule_add ga).j_factor = some fj := by
  unfold schedule_add
  rw [if_pos hdt]
  simp only [hfi, hfj]
  refine ⟨?_, by simp, by simp⟩
  rw [addPragma_splits, constInlineLoop_splits, addCacheAttachLoop_splits,
    cacheEwiseLoop_splits, addEwiseLoop_splits, reorderStage_splits,
    splitAxis_splits, splitAxis_splits, splitAxis_splits]
  simp [addInit]

/-- C8: for every fused add with integral output dtype and positive constant
height/width extents, `_schedule_add` selects as the height tile factor the
largest divisor of the height extent not exceeding 28 and as the width tile
factor the largest divisor of the width extent not exceeding 14
(`Nat.findGreatest` of divisibility under the cap), and uses them as the
split factors of the output height and width axes. -/
theorem schedule_add_tile_factors (ga : AddGraphInfo)
    (hdt : strContains ga.outDtype ("int") = true)
    (hi : 0 < ga.extents.getD 2 0) (hj : 0 < ga.extents.getD 3 0) :
    (schedule_add ga).i_factor =
      some (Nat.findGreatest (fun d => d ∣ ga.extents.getD 2 0) 28) ∧
    (schedule_add ga).j_factor =
      some (Nat.findGreatest (fun d => d ∣ ga.extents.getD 3 0) 14) ∧
    Nat.findGreatest (fun d => d ∣ ga.extents.getD 2 0) 28 ∣
      ga.extents.getD 2 0 ∧
    Nat.findGreatest (fun d => d ∣ ga.extents.getD 2 0) 28 ≤ 28 ∧
    (∀ d, d ∣ ga.extents.getD 2 0 → d ≤ 28 →
      d ≤ Nat.findGreatest (fun e => e ∣ ga.extents.getD 2 0) 28) ∧
    Nat.findGreatest (fun d => d ∣ ga.extents.getD 3 0) 14 ∣
      ga.extents.getD 3 0 ∧
    Nat.findGreatest (fun d => d ∣ ga.extents.getD 3 0) 14 ≤ 14 ∧
    (∀ d, d ∣ ga.extents.getD 3 0 → d ≤ 14 →
      d ≤ Nat.findGreatest (fun e => e ∣ ga.extents.getD 3 0) 14) ∧
    (StageId.output, addAx ga 2,
      tileOuter (addAx ga 2)
        (Int.ofNat (Nat.findGreatest (fun d => d ∣ ga.extents.getD 2 0) 28)),
      tileInner (addAx ga 2)
        (Int.ofNat (Nat.findGreatest (fun d => d ∣ ga.extents.getD 2 0) 28)))
      ∈ (schedule_add ga).st.splits ∧
    (StageId.output, addAx ga 3,
      tileOuter (addAx ga 3)
        (Int.ofNat (Nat.findGreatest (fun d => d ∣ ga.extents.getD 3 0) 14)),
      tileInner (addAx ga 3)
        (Int.ofNat (Nat.findGreatest (fun d => d ∣ ga.extents.getD 3 0) 14)))
      ∈ (schedule_add ga).st.splits := by
  have hfi := lastNotExceeding_factors (ga.extents.getD 2 0) 28 hi (by omega)
  have hfj := lastNotExceeding_factors (ga.extents.getD 3 0) 14 hj (by omega)
  obtain ⟨hsp, hif, hjf⟩ := schedule_add_splits_of ga _ _ hdt hfi hfj
  refine ⟨hif, hjf, ?_, Nat.findGreatest_le 28, ?_, ?_, Nat.findGreatest_le 14,
    ?_, ?_, ?_⟩
  · exact @Nat.findGreatest_spec 1 (fun d => d ∣ ga.extents.getD 2 0) _ 28
      (by omega) (one_dvd _)
  · intro d hd hdc
    exact Nat.le_findGreatest hdc hd
  · exact @Nat.findGreatest_spec 1 (fun d => d ∣ ga.extents.getD 3 0) _ 14
      (by omega) (one_dvd _)
  · intro d hd hdc
    exact Nat.le_findGreatest hdc hd
  · rw [hsp]
    simp
  · rw [hsp]
    simp

/-- Witness for C8: extents height = width = 56 select factors 28 and 14. -/
theorem schedule_add_tile_factors_witness :
    strContains ("int8") ("int") = true ∧
    (schedule_add ⟨"int8", [1, 16, 56, 56, 1, 16], 0, 0, 0⟩).i_factor =
      some 28 ∧
    (schedule_add ⟨"int8", [1, 16, 56, 56, 1, 16], 0, 0, 0⟩).j_factor =
      some 14 := by
  have h := schedule_add_tile_factors ⟨"int8", [1, 16, 56, 56, 1, 16], 0, 0, 0⟩
    (by decide) (by decide) (by decide)
  exact ⟨by decide, h.1.trans (by decide), h.2.1.trans (by decide)⟩
